import Mathlib

/-!
# Verification of the `sql_parser_lib` front end

A shallow embedding of the library's tokenizer (`src/token.rs`), token cursor
(`src/parser/mod.rs`), expression parser (`src/parser/expr.rs`), shared clause
parsers (`src/parser/common.rs`) and the SELECT / INSERT / DELETE statement
parsers, together with theorems settling the specification's claims.

Conventions of the embedding:
* Rust strings are modelled as `List Char`; `String` payloads are built with
  `String.mk` at token boundaries.
* Rust character classes (`char::is_alphanumeric`, `is_ascii_digit`, regex
  `\s`) are modelled at the ASCII level, which is where every input the
  claims touch lives.
* Fallible parsing is an `Except` monad; a Rust `panic!`/`todo!` is a
  distinct failure constructor, and general recursion is made structural with
  an explicit fuel argument (fuel exhaustion is a third, separate failure
  constructor that none of the concrete runs below ever reaches).
-/

/-- The single-quote character, written via its code point. -/
def qc : Char := Char.ofNat 39

/-- The backtick character, written via its code point. -/
def btc : Char := Char.ofNat 96

/-- Model of the regex class `\s` on the ASCII range (space, tab, newline,
carriage return, vertical tab, form feed). -/
def isWs (c : Char) : Bool :=
  c = ' ' || c = Char.ofNat 9 || c = Char.ofNat 10 || c = Char.ofNat 13 ||
  c = Char.ofNat 11 || c = Char.ofNat 12

/-- State machine for `RE_BLOCK.replace_all(input, "")`.  With `buf = none`
the scan is outside a comment; with `buf = some b`, the scan is inside a
candidate `/* ...` block whose contents so far are `b` (reversed).  If the
block closes with `*/` the buffered text is discarded; if the input ends
first the candidate never matched the lazy regex, so `/*` plus the buffer is
emitted unchanged.  This reproduces leftmost, lazily-closed matching. -/
def sbGo : Option (List Char) → List Char → List Char
  | none, [] => []
  | some buf, [] => '/' :: '*' :: buf.reverse
  | none, '/' :: '*' :: rest => sbGo (some []) rest
  | none, c :: rest => c :: sbGo none rest
  | some _, '*' :: '/' :: rest => sbGo none rest
  | some buf, c :: rest => sbGo (some (c :: buf)) rest

/-- Model of `RE_BLOCK.replace_all(input, "")`: remove every (lazily matched)
`/* ... */` block comment, leftmost first; an unterminated `/*` is left
untouched, as the regex then fails to match anywhere in the remainder. -/
def stripBlock (s : List Char) : List Char := sbGo none s

/-- Model of `RE_LINE.replace_all(_, "")` with pattern `(?m)--.*$`: from each
`--` on, drop characters up to (excluding) the next newline.  The flag is
true while inside a comment being dropped. -/
def stripLineAux : Bool → List Char → List Char
  | _, [] => []
  | false, '-' :: '-' :: rest => stripLineAux true rest
  | false, c :: rest => c :: stripLineAux false rest
  | true, '\n' :: rest => '\n' :: stripLineAux false rest
  | true, _ :: rest => stripLineAux true rest

/-- Line-comment stripping pass. -/
def stripLine (s : List Char) : List Char := stripLineAux false s

/-- Model of `replace('\n', " ")`. -/
def mapNl (s : List Char) : List Char :=
  s.map (fun c => if c = '\n' then ' ' else c)

/-- State machine for `RE_SPACES.replace_all(_, " ")`: the flag records
whether the previous character was whitespace (so each maximal whitespace
run yields a single space). -/
def collapseGo (prevWs : Bool) : List Char → List Char
  | [] => []
  | c :: rest =>
    if isWs c then
      if prevWs then collapseGo true rest else ' ' :: collapseGo true rest
    else c :: collapseGo false rest

/-- Model of `RE_SPACES.replace_all(_, " ")`: each maximal run of whitespace
becomes a single space. -/
def collapse (s : List Char) : List Char := collapseGo false s

/-- Model of `str::trim`. -/
def trimList (s : List Char) : List Char :=
  ((s.dropWhile isWs).reverse.dropWhile isWs).reverse

/-- Leftmost, non-overlapping replacement of the two-character pattern `p`
by `r` (models `str::replace` for a 2-character needle). -/
def replace2 (p : Char × Char) (r : List Char) : List Char → List Char
  | [] => []
  | [a] => [a]
  | a :: b :: rest =>
    if (a, b) = p then r ++ replace2 p r rest
    else a :: replace2 p r (b :: rest)

/-- Leftmost, non-overlapping replacement of the three-character pattern `p`
by `r` (models `str::replace` for a 3-character needle). -/
def replace3 (p : Char × Char × Char) (r : List Char) : List Char → List Char
  | [] => []
  | [a] => [a]
  | [a, b] => [a, b]
  | a :: b :: c :: rest =>
    if (a, b, c) = p then r ++ replace3 p r rest
    else a :: replace3 p r (b :: c :: rest)

/-- The single-quote masking pass of `preprocess_input`: while inside single
quotes, a space becomes `___` and a comma becomes `---`; everything else is
copied.  The flag is the `in_quotes` state. -/
def mask : Bool → List Char → List Char
  | _, [] => []
  | inq, c :: rest =>
    if c = qc then qc :: mask (!inq) rest
    else if c = ' ' && inq then '_' :: '_' :: '_' :: mask inq rest
    else if c = ',' && inq then '-' :: '-' :: '-' :: mask inq rest
    else c :: mask inq rest

/-- Model of `preprocess_input` (src/token.rs:39-73): strip block comments,
strip line comments, replace newlines by spaces, collapse whitespace runs and
trim, normalize `'''` to `'`, then run the quote-masking pass. -/
def preprocess_input (s : List Char) : List Char :=
  mask false (replace3 (qc, qc, qc) [qc] (trimList (collapse (mapNl (stripLine (stripBlock s))))))

/-- Modelled from the spec: the reserved-keyword vocabulary (§6 "two read-only
sets of uppercase strings").  The embedded `keywords.json` consumed by
`src/kerwords.rs` is not under `src/`; this list holds the uppercase keywords
of the dialect the spec describes (SELECT/INSERT/DELETE grammar words,
logical operators, and the usual MySQL-flavored reserved words). -/
def KEYWORDS : List String :=
  ["SELECT", "FROM", "WHERE", "GROUP", "BY", "HAVING", "ORDER", "LIMIT",
   "OFFSET", "DELETE", "INSERT", "INTO", "VALUES", "SET", "DEFAULT", "ON",
   "DUPLICATE", "KEY", "UPDATE", "AS", "AND", "OR", "NOT", "NULL",
   "DISTINCT", "ALL", "ASC", "DESC", "IN", "BETWEEN", "IS", "LIKE",
   "CREATE", "TABLE", "DROP", "IF", "EXISTS", "PRIMARY", "UNIQUE",
   "JOIN", "USE", "SHOW", "EXPLAIN", "COMMENT", "ENGINE", "AUTO_INCREMENT"]

/-- Modelled from the spec: the recognized type-name vocabulary (§6); the
embedded `types.json` is not under `src/`. -/
def TYPES : List String :=
  ["INT", "INTEGER", "BIGINT", "SMALLINT", "TINYINT", "UNSIGNED",
   "VARCHAR", "CHAR", "TEXT", "FLOAT", "DOUBLE", "DECIMAL",
   "DATE", "DATETIME", "TIMESTAMP", "BOOLEAN", "BLOB"]

/-- `OPERATOR_SET` (src/token.rs:27). -/
def OPERATOR_SET : List String := ["=", "<", ">", "<=", ">=", "!=", "+", "-", "*", "/", "%"]

/-- `PUNCTUATORS` (src/token.rs:28). -/
def PUNCTUATORS : List Char := [',', ';', '(', ')', '.']

/-- The `Token` enum (src/token.rs:7-25). -/
inductive Token
  | Keyword (s : String)
  | Identifier (s : String)
  | StringLiteral (s : String)
  | NumericLiteral (s : String)
  | Operator (s : String)
  | Punctuator (c : Char)
  | DataType (name : String) (length : Option String)
  | QualifiedIdentifier (qualifier : String) (name : String)
deriving DecidableEq, Repr

/-- Model of `str::to_uppercase` on the ASCII range, packaged as a `String`. -/
def upperStr (w : List Char) : String := String.mk (w.map Char.toUpper)

/-- Model of `char::is_alphanumeric || ch == '_'` on the ASCII range. -/
def isIdentChar (c : Char) : Bool := c.isAlphanum || c = '_'

/-- The keyword/number/identifier classification used whenever the
sub-tokenizer flushes its accumulator (src/token.rs:207-213 etc.). -/
def classifyAcc (acc : List Char) : Token :=
  if KEYWORDS.contains (upperStr acc) then Token.Keyword (String.mk acc)
  else if acc.all Char.isDigit then Token.NumericLiteral (String.mk acc)
  else Token.Identifier (String.mk acc)

/-- `try_parse_data_type` (src/token.rs:76-99). -/
def try_parse_data_type (word : List Char) : Option Token :=
  if TYPES.contains (upperStr word) then
    some (Token.DataType (String.mk word) none)
  else
    match word.findIdx? (· = '(') with
    | some start =>
      if word.getLast? = some ')' then
        let name := word.take start
        if !TYPES.contains (upperStr name) then none
        else
          let inside := (word.drop (start + 1)).dropLast
          some (Token.DataType (String.mk name)
            (if inside = [] then none else some (String.mk inside)))
      else none
    | none => none

/-- The character-level sub-tokenizer `parse_single_identifier`
(src/token.rs:181-334).  Arguments after the fuel (which only makes the
recursion structural; each step consumes input, so the entry point's fuel is
never exhausted) and the input are the mutable locals of the Rust loop: the
accumulator, the `in_backticks` and `in_quotes` flags and the captured
backtick/quote content. -/
def psiGo (fuel : Nat) (cs : List Char) (acc : List Char) (inBt inQ : Bool)
    (btC qC : List Char) : List Token :=
  match fuel with
  | 0 => []
  | fl + 1 =>
  match cs with
  | [] =>
    (if acc = [] then [] else [classifyAcc acc]) ++
    (if inBt && btC ≠ [] then [Token.Identifier (String.mk btC)] else [])
  | ch :: rest =>
    if ch = qc then
      if inQ then
        Token.StringLiteral (String.mk qC) :: psiGo fl rest acc inBt false btC []
      else
        (if acc = [] then [] else [classifyAcc acc]) ++ psiGo fl rest [] inBt true btC qC
    else if inQ then psiGo fl rest acc inBt inQ btC (qC ++ [ch])
    else if ch = btc then
      if inBt then
        Token.Identifier (String.mk btC) :: psiGo fl rest acc false inQ [] qC
      else
        (if acc = [] then [] else [classifyAcc acc]) ++ psiGo fl rest [] true inQ btC qC
    else if inBt then psiGo fl rest acc inBt inQ (btC ++ [ch]) qC
    else if isIdentChar ch then psiGo fl rest (acc ++ [ch]) inBt inQ btC qC
    else if ch = '.' then
      let run := rest.takeWhile isIdentChar
      let rest' := rest.dropWhile isIdentChar
      if acc = [] || acc.all Char.isDigit then
        Token.NumericLiteral (String.mk (acc ++ '.' :: run)) :: psiGo fl rest' [] inBt inQ btC qC
      else if run ≠ [] then
        Token.QualifiedIdentifier (String.mk acc) (String.mk run) :: psiGo fl rest' [] inBt inQ btC qC
      else
        Token.Identifier (String.mk acc) :: Token.Punctuator '.' :: psiGo fl rest' [] inBt inQ btC qC
    else
      (if acc = [] then [] else [classifyAcc acc]) ++
      (if PUNCTUATORS.contains ch then [Token.Punctuator ch]
       else if OPERATOR_SET.contains (String.mk [ch]) then [Token.Operator (String.mk [ch])]
       else if !isWs ch then [Token.Identifier (String.mk [ch])]
       else []) ++
      psiGo fl rest [] inBt inQ btC qC

/-- `parse_single_identifier` entry point with the initial scan state.  The
fuel `w.length + 1` is always sufficient: every step of `psiGo` consumes at
least one input character. -/
def parse_single_identifier (w : List Char) : List Token :=
  psiGo (w.length + 1) w [] false false [] []

/-- The space-insertion around `(`,`)`,`,`,`;` performed by
`parse_identifier` (src/token.rs:345-349). -/
def expandPunct (s : List Char) : List Char :=
  s.flatMap fun c =>
    if c = '(' || c = ')' || c = ',' || c = ';' then [' ', c, ' '] else [c]

/-- Accumulator form of `str::split_whitespace`: `cur` is the reversed
current word. -/
def splitWsGo (cur : List Char) : List Char → List (List Char)
  | [] => if cur = [] then [] else [cur.reverse]
  | c :: rest =>
    if isWs c then
      if cur = [] then splitWsGo [] rest else cur.reverse :: splitWsGo [] rest
    else splitWsGo (c :: cur) rest

/-- Model of `str::split_whitespace`: maximal runs of non-whitespace. -/
def splitWs (s : List Char) : List (List Char) := splitWsGo [] s

/-- `parse_identifier` (src/token.rs:343-362). -/
def parse_identifier (w : List Char) : List Token :=
  ((splitWs (expandPunct w)).map parse_single_identifier).flatten

/-- Classification of one whitespace-delimited word inside `tokenize`
(src/token.rs:107-173), including the peel-off of a trailing `,`/`;`. -/
def tokenizeWord (raw : List Char) : List Token :=
  let lastP : Option Token :=
    match raw.getLast? with
    | some c => if c = ',' || c = ';' then some (Token.Punctuator c) else none
    | none => none
  let word := if lastP.isSome then raw.dropLast else raw
  if word = [] then
    match lastP with
    | some t => [t]
    | none => []
  else
    (match try_parse_data_type word with
     | some t => [t]
     | none =>
       if KEYWORDS.contains (upperStr word) then [Token.Keyword (String.mk word)]
       else if word.all Char.isDigit then [Token.NumericLiteral (String.mk word)]
       else if word.head? = some qc && word.getLast? = some qc && word.length ≥ 2 then
         let inner := (word.drop 1).dropLast
         [Token.StringLiteral (String.mk
           (replace3 ('-', '-', '-') [','] (replace2 (qc, qc) [qc]
             (replace3 ('_', '_', '_') [' '] inner))))]
       else if OPERATOR_SET.contains (String.mk word) then [Token.Operator (String.mk word)]
       else
         match word with
         | [c] =>
           if PUNCTUATORS.contains c then [Token.Punctuator c]
           else if word.head? = some btc && word.getLast? = some btc && word.length ≥ 2 then
             [Token.Identifier (String.mk ((word.drop 1).dropLast))]
           else parse_identifier word
         | _ =>
           if word.head? = some btc && word.getLast? = some btc && word.length ≥ 2 then
             [Token.Identifier (String.mk ((word.drop 1).dropLast))]
           else parse_identifier word) ++
    (match lastP with
     | some t => [t]
     | none => [])

/-- `tokenize` (src/token.rs:103-177). -/
def tokenize (input : List Char) : List Token :=
  ((splitWs (preprocess_input input)).map tokenizeWord).flatten

/-- Convenience wrapper running `tokenize` on a string literal. -/
def tokenizeStr (s : String) : List Token := tokenize s.data

/-- `BinaryOperator` (src/ast/expr.rs:61-73). -/
inductive BinaryOperator
  | Eq | NotEq | Lt | LtEq | Gt | GtEq | Plus | Minus | Multiply | Divide | Like
deriving DecidableEq, Repr

/-- `UnaryOperator` (src/ast/expr.rs:77-80). -/
inductive UnaryOperator
  | Plus | Minus
deriving DecidableEq, Repr

/-- `LogicalOperator` (src/ast/expr.rs:84-88). -/
inductive LogicalOperator
  | And | Or | Not
deriving DecidableEq, Repr

/-- `Value` (src/ast/expr.rs:92-99).  The `Float(f64)` payload is modelled by
the decimal source text that `f64::from_str` accepted: no claim inspects the
numeric value of a float, and this keeps the embedding executable and
decidable. -/
inductive Value
  | String (s : String)
  | Integer (i : Int)
  | Float (text : String)
  | Boolean (b : Bool)
  | Null
  | DEFAULT
deriving DecidableEq, Repr

/-- `Expr` (src/ast/expr.rs:3-57). -/
inductive Expr
  | Identifier (s : String)
  | Wildcard
  | Literal (v : Value)
  | BinaryOp (left : Expr) (op : BinaryOperator) (right : Expr)
  | In (expr : Expr) (list : List Expr) (negated : Bool)
  | Between (expr : Expr) (low : Expr) (high : Expr) (negated : Bool)
  | IsNull (expr : Expr) (negated : Bool)
  | FunctionCall (name : String) (args : List Expr)
  | LogicalOp (op : LogicalOperator) (expressions : List Expr)
  | UnaryOp (op : UnaryOperator) (expr : Expr)

/-- `OrderByExpr` (src/ast/expr.rs:104-107). -/
structure OrderByExpr where
  expr : Expr
  asc : Bool

/-- `LimitClause` (src/ast/expr.rs:111-116); `u64` is modelled as `Nat`
together with the range check performed at parse time. -/
structure LimitClause where
  limit : Nat
  offset : Option Nat
deriving DecidableEq, Repr

/-- `TableReference`.  `src/ast/mod.rs` declares `pub mod common` and the
delete/insert parsers import `ast::common::TableReference`, but
`src/ast/common.rs` is not under `src/`; the structure is modelled from the
spec (§3 `TableReference{name, optional alias}`), matching the identical
`TableReference` that `src/ast/select.rs:26-29` defines; the Rust field
`alias` is named `alias_` because `alias` is reserved in Lean. -/
structure TableReference where
  name : String
  alias_ : Option String
deriving DecidableEq, Repr

/-- `DeleteStatement` (src/ast/delete.rs:6-12). -/
structure DeleteStatement where
  table : TableReference
  where_clause : Option Expr
  order_by : Option (List OrderByExpr)
  limit : Option LimitClause
  is_return_count : Bool

/-- `SelectColumn` (src/ast/select.rs:33-41); `alias` is renamed `alias_`. -/
inductive SelectColumn
  | Wildcard
  | Column (name : String) (alias_ : Option String)
deriving DecidableEq, Repr

/-- `SelectStatement` (src/ast/select.rs:6-21); the Rust field `from` is
named `fromTable` because `from` is reserved in Lean. -/
structure SelectStatement where
  columns : List SelectColumn
  fromTable : TableReference
  where_clause : Option Expr
  group_by : Option (List Expr)
  having : Option Expr
  order_by : Option (List OrderByExpr)
  limit : Option LimitClause

/-- `OnDuplicateClause` (src/ast/insert.rs:21-23). -/
structure OnDuplicateClause where
  updates : List (String × Expr)

/-- `InsertStatement` (src/ast/insert.rs:7-16). -/
structure InsertStatement where
  table : TableReference
  columns : Option (List String)
  values : Option (List (List Expr))
  select_clause : Option SelectStatement
  set_clause : Option (List (String × Expr))
  on_duplicate : Option OnDuplicateClause
  is_default_values : Bool
  is_return_count : Bool

/-- `ParseError` (src/parser/mod.rs:14-17). -/
structure ParseError where
  message : String
  token_position : Nat
deriving DecidableEq, Repr

/-- A failure of a parsing function: a returned `ParseError`, a Rust panic
(`todo!()` in src/parser/select.rs), or exhaustion of the fuel that makes the
embedding's recursion structural (never reached in any run below). -/
inductive PFail
  | parseError (e : ParseError)
  | panic (msg : String)
  | fuelOut
deriving DecidableEq, Repr

/-- The `Parser` struct (src/parser/mod.rs:32-35): token sequence plus
cursor position. -/
structure PState where
  tokens : List Token
  current : Nat
deriving DecidableEq, Repr

/-- Result type of a stateful parsing function. -/
abbrev PRes (α : Type) := Except PFail (α × PState)

/-- `Parser::peek` (src/parser/mod.rs:56-58). -/
def peek (st : PState) : Option Token := st.tokens.get? st.current

/-- `Parser::peek_n` (src/parser/mod.rs:61-63). -/
def peek_n (st : PState) (n : Nat) : Option Token := st.tokens.get? (st.current + n)

/-- `Parser::consume_token` (src/parser/mod.rs:66-74). -/
def consume_token (st : PState) : Option Token × PState :=
  match st.tokens.get? st.current with
  | some t => (some t, { st with current := st.current + 1 })
  | none => (none, st)

/-- `Parser::has_more` (src/parser/mod.rs:77-79). -/
def has_more (st : PState) : Bool := st.current < st.tokens.length

/-- `Parser::skip` (src/parser/mod.rs:82-84). -/
def skip (st : PState) (n : Nat) : PState :=
  { st with current := min (st.current + n) st.tokens.length }

/-- `Parser::back` (src/parser/mod.rs:87-91). -/
def back (st : PState) : PState :=
  if st.current > 0 then { st with current := st.current - 1 } else st

/-- Modelled from the spec: `Parser::next` is called by
`src/parser/common.rs` and `src/parser/select.rs` but is not defined under
`src/`; per §4.2 the cursor's consuming step advances the position by one
(identically to `consume_token` with the returned token discarded). -/
def nextTok (st : PState) : PState := (consume_token st).2

/-- Uppercase comparison used by the keyword helpers. -/
def upperS (s : String) : String := upperStr s.data

/-- `Parser::match_punctuator` (src/parser/mod.rs:96-104). -/
def match_punctuator (c : Char) (st : PState) : Bool × PState :=
  match peek st with
  | some (Token.Punctuator p) => if p = c then (true, (consume_token st).2) else (false, st)
  | _ => (false, st)

/-- `Parser::is_punctuator` (src/parser/mod.rs:106-111). -/
def is_punctuator (c : Char) (st : PState) : Bool :=
  match peek st with
  | some (Token.Punctuator p) => p = c
  | _ => false

/-- `Parser::match_keyword` (src/parser/mod.rs:114-122). -/
def match_keyword (kw : String) (st : PState) : Bool × PState :=
  match peek st with
  | some (Token.Keyword k) =>
    if upperS k = upperS kw then (true, (consume_token st).2) else (false, st)
  | _ => (false, st)

/-- `Parser::is_keyword` (src/parser/mod.rs:124-129). -/
def is_keyword (kw : String) (st : PState) : Bool :=
  match peek st with
  | some (Token.Keyword k) => upperS k = upperS kw
  | _ => false

/-- `Parser::match_operator` (src/parser/mod.rs:132-140). -/
def match_operator (opr : String) (st : PState) : Bool × PState :=
  match peek st with
  | some (Token.Operator o) => if o = opr then (true, (consume_token st).2) else (false, st)
  | _ => (false, st)

/-- `Parser::is_operator` (src/parser/mod.rs:141-146). -/
def is_operator (opr : String) (st : PState) : Bool :=
  match peek st with
  | some (Token.Operator o) => o = opr
  | _ => false

/-- A single-quote as a one-character string (avoids quote escapes). -/
def sqS : String := String.mk [qc]

/-- Rust `Debug` rendering of a `Token`, used by the `_ =>` arm of
`format_token` and by the `{:?}` message interpolations.  Inner-quote
escaping of the derived `Debug` output is not modelled (no claim inspects
these strings). -/
def rustDebugToken (t : Token) : String :=
  match t with
  | Token.Keyword s => "Keyword(\"" ++ s ++ "\")"
  | Token.Identifier s => "Identifier(\"" ++ s ++ "\")"
  | Token.StringLiteral s => "StringLiteral(\"" ++ s ++ "\")"
  | Token.NumericLiteral s => "NumericLiteral(\"" ++ s ++ "\")"
  | Token.Operator s => "Operator(\"" ++ s ++ "\")"
  | Token.Punctuator c => "Punctuator(" ++ sqS ++ String.mk [c] ++ sqS ++ ")"
  | Token.DataType n l =>
    "DataType \x7b name: \"" ++ n ++ "\", length: " ++
      (match l with
       | some v => "Some(\"" ++ v ++ "\")"
       | none => "None") ++ " \x7d"
  | Token.QualifiedIdentifier q n =>
    "QualifiedIdentifier \x7b qualifier: \"" ++ q ++ "\", name: \"" ++ n ++ "\" \x7d"

/-- Rust `Debug` rendering of `Option<&Token>` for `{:?}` interpolations. -/
def rustDebugOptToken (t : Option Token) : String :=
  match t with
  | some tk => "Some(" ++ rustDebugToken tk ++ ")"
  | none => "None"

/-- `Parser::format_token` (src/parser/mod.rs:149-161). -/
def format_token (t : Token) : String :=
  match t with
  | Token.Keyword k => k
  | Token.Identifier i => i
  | Token.StringLiteral s => sqS ++ s ++ sqS
  | Token.NumericLiteral n => n
  | Token.Punctuator c => String.mk [c]
  | _ => rustDebugToken t

/-- `Parser::get_error_context` (src/parser/mod.rs:164-185). -/
def get_error_context (st : PState) : String :=
  let start := if st.current > 3 then st.current - 3 else 0
  let stop := min (st.current + 2) st.tokens.length
  let parts := (List.range (stop - start)).map fun i =>
    let pos := start + i
    let marker := if pos = st.current then "👉 " else ""
    marker ++ (match st.tokens.get? pos with
               | some t => format_token t
               | none => "")
  "\"" ++ String.intercalate " " parts ++ "\""

/-- `Parser::get_parse_error` (src/parser/mod.rs:187-193). -/
def get_parse_error (st : PState) (msg : String) : ParseError :=
  { message := msg ++ ". Near: " ++ get_error_context st,
    token_position := st.current }

/-- `MAX_EXPR_DEPTH` (src/parser/expr.rs:5). -/
def MAX_EXPR_DEPTH : Nat := 100

/-- Model of `str::parse::<u64>` on a token's text: digits only (the
tokenizer never produces signs), within the `u64` range. -/
def parseU64 (s : String) : Option Nat :=
  if s.data ≠ [] ∧ s.data.all Char.isDigit then
    let n := s.data.foldl (fun acc c => acc * 10 + (c.toNat - 48)) 0
    if n ≤ 2 ^ 64 - 1 then some n else none
  else none

/-- Model of `str::parse::<i64>` on a token's text (digits only, so the
value is non-negative and must fit below `2^63`). -/
def parseI64 (s : String) : Option Int :=
  if s.data ≠ [] ∧ s.data.all Char.isDigit then
    let n := s.data.foldl (fun acc c => acc * 10 + (c.toNat - 48)) 0
    if n ≤ 2 ^ 63 - 1 then some (Int.ofNat n) else none
  else none

/-- Model of the success predicate of `str::parse::<f64>` for the shapes the
tokenizer can produce: at most one dot, all other characters digits, and at
least one digit (the numeric value itself is not modelled; see `Value`). -/
def parsesAsF64 (s : String) : Bool :=
  (s.data.filter (· = '.')).length = 1 &&
  (s.data.filter (· ≠ '.')).all Char.isDigit &&
  (s.data.filter (· ≠ '.')).length ≥ 1

/-- `Parser::match_comparison_operator` (src/parser/expr.rs:249-269). -/
def match_comparison_operator (st : PState) : Option BinaryOperator × PState :=
  match peek st with
  | some (Token.Operator o) =>
    let r : Option BinaryOperator :=
      if o = "=" then some BinaryOperator.Eq
      else if o = "!=" || o = "<>" then some BinaryOperator.NotEq
      else if o = "<" then some BinaryOperator.Lt
      else if o = "<=" then some BinaryOperator.LtEq
      else if o = ">" then some BinaryOperator.Gt
      else if o = ">=" then some BinaryOperator.GtEq
      else none
    if r.isSome then (r, (consume_token st).2) else (r, st)
  | _ => (none, st)

/-!
The precedence chain of `src/parser/expr.rs` is one recursive nest whose
only cycle is `parse_primary` → `parse_expr` (through `(`...`)`).  To keep
every definition structurally recursive (hence kernel-reducible), each tier
takes the recursive entry point as an explicit argument `pe`, and
`parse_expr` below ties the knot as the single fuel-structural fixpoint.
The `fuel` arguments only finitize the tier-level folding loops.
-/

/-- `parse_primary` (src/parser/expr.rs:175-247); `pe` is the recursive
`parse_expr` call used for parenthesized sub-expressions. -/
def parse_primary (pe : Nat → PState → PRes Expr) (depth : Nat) (st : PState) : PRes Expr :=
  match consume_token st with
  | (none, st) =>
    .error (.parseError (get_parse_error st "Expected primary expression, but found none"))
  | (some tk, st) =>
    match tk with
    | Token.NumericLiteral n =>
      if n.data.contains '.' then
        if parsesAsF64 n then .ok (Expr.Literal (Value.Float n), st)
        else .error (.parseError (get_parse_error st ("Invalid float: " ++ n)))
      else
        match parseI64 n with
        | some i => .ok (Expr.Literal (Value.Integer i), st)
        | none => .error (.parseError (get_parse_error st ("Invalid integer: " ++ n)))
    | Token.StringLiteral s => .ok (Expr.Literal (Value.String s), st)
    | Token.Identifier ident => .ok (Expr.Identifier ident, st)
    | Token.QualifiedIdentifier q nm => .ok (Expr.Identifier (q ++ "." ++ nm), st)
    | Token.Punctuator c =>
      if c = '(' then
        match pe (depth + 1) st with
        | .error e => .error e
        | .ok (e, st) =>
          match match_punctuator ')' st with
          | (true, st) => .ok (e, st)
          | (false, st) =>
            let next_token :=
              match peek st with
              | some t => rustDebugToken t
              | none => "end of input"
            .error (.parseError (get_parse_error st
              ("Expect " ++ sqS ++ ")" ++ sqS ++ " expression, found: \"" ++ next_token ++ "\"")))
      else if c = '*' then .ok (Expr.Wildcard, st)
      else .error (.parseError (get_parse_error st
        ("Unexpected token in primary expression: " ++ rustDebugToken tk)))
    | Token.Keyword k =>
      if upperS k = "NULL" then .ok (Expr.Literal Value.Null, st)
      else .error (.parseError (get_parse_error st
        ("Unexpected token in primary expression: " ++ rustDebugToken tk)))
    | _ => .error (.parseError (get_parse_error st
        ("Unexpected token in primary expression: " ++ rustDebugToken tk)))

/-- `parse_unary` (src/parser/expr.rs:145-172): `+`/`-` prefixes, `+` a
no-op, `-` wrapping in a unary-minus node, right-recursive. -/
def parse_unary (pe : Nat → PState → PRes Expr) (fuel : Nat) (depth : Nat) (st : PState) : PRes Expr :=
  match fuel with
  | 0 => .error .fuelOut
  | f + 1 =>
    match peek st with
    | some (Token.Operator o) =>
      if o = "+" || o = "-" then
        let st := (consume_token st).2
        match parse_unary pe f depth st with
        | .error e => .error e
        | .ok (operand, st) =>
          if o = "-" then .ok (Expr.UnaryOp UnaryOperator.Minus operand, st)
          else .ok (operand, st)
      else parse_primary pe depth st
    | _ => parse_primary pe depth st

/-- The `*`/`/` folding loop of `parse_multiplicative`. -/
def mulLoop (pe : Nat → PState → PRes Expr) (fuel : Nat) (depth : Nat) (e : Expr) (st : PState) : PRes Expr :=
  match fuel with
  | 0 => .error .fuelOut
  | f + 1 =>
    match peek st with
    | some (Token.Operator o) =>
      if o = "*" || o = "/" then
        let st := (consume_token st).2
        let bop := if o = "*" then BinaryOperator.Multiply else BinaryOperator.Divide
        match parse_unary pe f depth st with
        | .error err => .error err
        | .ok (r, st) => mulLoop pe f depth (Expr.BinaryOp e bop r) st
      else .ok (e, st)
    | _ => .ok (e, st)

/-- `parse_multiplicative` (src/parser/expr.rs:116-142). -/
def parse_multiplicative (pe : Nat → PState → PRes Expr) (fuel : Nat) (depth : Nat) (st : PState) : PRes Expr :=
  match fuel with
  | 0 => .error .fuelOut
  | f + 1 =>
    match parse_unary pe f depth st with
    | .error e => .error e
    | .ok (e, st) => mulLoop pe f depth e st

/-- The `+`/`-` folding loop of `parse_additive`. -/
def addLoop (pe : Nat → PState → PRes Expr) (fuel : Nat) (depth : Nat) (e : Expr) (st : PState) : PRes Expr :=
  match fuel with
  | 0 => .error .fuelOut
  | f + 1 =>
    match peek st with
    | some (Token.Operator o) =>
      if o = "+" || o = "-" then
        let st := (consume_token st).2
        let bop := if o = "+" then BinaryOperator.Plus else BinaryOperator.Minus
        match parse_multiplicative pe f depth st with
        | .error err => .error err
        | .ok (r, st) => addLoop pe f depth (Expr.BinaryOp e bop r) st
      else .ok (e, st)
    | _ => .ok (e, st)

/-- `parse_additive` (src/parser/expr.rs:87-113). -/
def parse_additive (pe : Nat → PState → PRes Expr) (fuel : Nat) (depth : Nat) (st : PState) : PRes Expr :=
  match fuel with
  | 0 => .error .fuelOut
  | f + 1 =>
    match parse_multiplicative pe f depth st with
    | .error e => .error e
    | .ok (e, st) => addLoop pe f depth e st

/-- `parse_comparison` (src/parser/expr.rs:70-84): at most one comparison
operator at this level (non-chainable). -/
def parse_comparison (pe : Nat → PState → PRes Expr) (fuel : Nat) (depth : Nat) (st : PState) : PRes Expr :=
  match fuel with
  | 0 => .error .fuelOut
  | f + 1 =>
    match parse_additive pe f depth st with
    | .error e => .error e
    | .ok (left, st) =>
      match match_comparison_operator st with
      | (some op, st) =>
        match parse_additive pe f depth st with
        | .error e => .error e
        | .ok (right, st) => .ok (Expr.BinaryOp left op right, st)
      | (none, st) => .ok (left, st)

/-- `parse_not` (src/parser/expr.rs:57-67): a non-repeatable `NOT` prefix. -/
def parse_not (pe : Nat → PState → PRes Expr) (fuel : Nat) (depth : Nat) (st : PState) : PRes Expr :=
  match fuel with
  | 0 => .error .fuelOut
  | f + 1 =>
    match match_keyword "NOT" st with
    | (true, st) =>
      match parse_comparison pe f depth st with
      | .error e => .error e
      | .ok (e, st) => .ok (Expr.LogicalOp LogicalOperator.Not [e], st)
    | (false, st) => parse_comparison pe f depth st

/-- The `while self.match_keyword("AND")` loop of `parse_logical_and`. -/
def andLoop (pe : Nat → PState → PRes Expr) (fuel : Nat) (depth : Nat) (e : Expr) (st : PState) : PRes Expr :=
  match fuel with
  | 0 => .error .fuelOut
  | f + 1 =>
    match match_keyword "AND" st with
    | (true, st) =>
      match parse_not pe f depth st with
      | .error err => .error err
      | .ok (r, st) => andLoop pe f depth (Expr.LogicalOp LogicalOperator.And [e, r]) st
    | (false, st) => .ok (e, st)

/-- `parse_logical_and` (src/parser/expr.rs:43-54). -/
def parse_logical_and (pe : Nat → PState → PRes Expr) (fuel : Nat) (depth : Nat) (st : PState) : PRes Expr :=
  match fuel with
  | 0 => .error .fuelOut
  | f + 1 =>
    match parse_not pe f depth st with
    | .error e => .error e
    | .ok (e, st) => andLoop pe f depth e st

/-- The `while self.match_keyword("OR")` loop of `parse_logical_or`. -/
def orLoop (pe : Nat → PState → PRes Expr) (fuel : Nat) (depth : Nat) (e : Expr) (st : PState) : PRes Expr :=
  match fuel with
  | 0 => .error .fuelOut
  | f + 1 =>
    match match_keyword "OR" st with
    | (true, st) =>
      match parse_logical_and pe f depth st with
      | .error err => .error err
      | .ok (r, st) => orLoop pe f depth (Expr.LogicalOp LogicalOperator.Or [e, r]) st
    | (false, st) => .ok (e, st)

/-- `parse_logical_or` (src/parser/expr.rs:28-40). -/
def parse_logical_or (pe : Nat → PState → PRes Expr) (fuel : Nat) (depth : Nat) (st : PState) : PRes Expr :=
  match fuel with
  | 0 => .error .fuelOut
  | f + 1 =>
    match parse_logical_and pe f depth st with
    | .error e => .error e
    | .ok (e, st) => orLoop pe f depth e st

/-- `Parser::parse_expr` (src/parser/expr.rs:18-25): the depth guard, then
the precedence chain from the loosest tier; this definition ties the
recursive knot of the whole expression grammar. -/
def parse_expr : Nat → Nat → PState → PRes Expr
  | 0, _, _ => .error .fuelOut
  | f + 1, depth, st =>
    if depth > MAX_EXPR_DEPTH then
      .error (.parseError (get_parse_error st "Expression nesting too deep"))
    else parse_logical_or (fun d st => parse_expr f d st) f depth st

/-- `Parser::move_current_idx` (src/parser/common.rs:9-31). -/
def move_current_idx (st : PState) (current_idx clause_idx : Nat)
    (get_clause_name : Nat → String) : Except PFail Nat :=
  if clause_idx > current_idx then .ok clause_idx
  else
    .error (.parseError
      { message := get_clause_name clause_idx ++ " clause out of order, expected after " ++
          get_clause_name current_idx ++ ". Near: " ++ get_error_context st,
        token_position := st.current })

/-- `Parser::parse_table_reference` (src/parser/common.rs:33-69), with the
`allow_as_keyword` flag.  Note the `&&` short-circuit: when the flag is
false, `match_keyword("AS")` is not called, so an `AS` token is not
consumed, and the `else if` arm takes any bare following identifier as the
alias. -/
def parse_table_reference (allow_as_keyword : Bool) (st : PState) : PRes TableReference :=
  match peek st with
  | some (Token.Identifier ident) =>
    let name := ident
    let st := nextTok st
    let asStep : Option (Bool × PState) :=
      if allow_as_keyword then
        let (m, st') := match_keyword "AS" st
        if m then some (true, st') else some (false, st)
      else none
    match asStep with
    | some (true, st) =>
      match peek st with
      | some (Token.Identifier a) =>
        .ok ({ name := name, alias_ := some a }, nextTok st)
      | _ =>
        .error (.parseError (get_parse_error st
          ("Expected alias after AS, found " ++ rustDebugOptToken (peek st))))
    | _ =>
      match peek st with
      | some (Token.Identifier a) => .ok ({ name := name, alias_ := some a }, nextTok st)
      | _ => .ok ({ name := name, alias_ := none }, st)
  | _ =>
    .error (.parseError (get_parse_error st
      ("Expected table name, found " ++ rustDebugOptToken (peek st))))

/-- The loop body of `parse_order_by` (src/parser/common.rs:71-100). -/
def orderByLoop (fuel : Nat) (acc : List OrderByExpr) (st : PState) : PRes (List OrderByExpr) :=
  match fuel with
  | 0 => .error .fuelOut
  | f + 1 =>
    match parse_expr f 0 st with
    | .error e => .error e
    | .ok (e, st) =>
      let (isDesc, st) := match_keyword "DESC" st
      if isDesc then
        let acc := acc ++ [{ expr := e, asc := false }]
        match match_punctuator ',' st with
        | (true, st) => orderByLoop f acc st
        | (false, st) => .ok (acc, st)
      else
        let (_isAsc, st) := match_keyword "ASC" st
        let acc := acc ++ [{ expr := e, asc := true }]
        match match_punctuator ',' st with
        | (true, st) => orderByLoop f acc st
        | (false, st) => .ok (acc, st)

/-- `Parser::parse_order_by` (src/parser/common.rs:71-100): one or more
`expr [ASC|DESC]` entries, comma separated, ascending by default. -/
def parse_order_by (fuel : Nat) (st : PState) : PRes (List OrderByExpr) :=
  orderByLoop fuel [] st

/-- `Parser::parse_limit` (src/parser/common.rs:102-141). -/
def parse_limit (st : PState) : PRes LimitClause :=
  match peek st with
  | some (Token.NumericLiteral v) =>
    match parseU64 v with
    | some limit =>
      let st := nextTok st
      match match_keyword "OFFSET" st with
      | (true, st) =>
        match peek st with
        | some (Token.NumericLiteral w) =>
          match parseU64 w with
          | some off => .ok ({ limit := limit, offset := some off }, nextTok st)
          | none =>
            .error (.parseError (get_parse_error st
              ("Invalid number after OFFSET, found " ++ rustDebugOptToken (peek st))))
        | _ =>
          .error (.parseError (get_parse_error st
            ("Expected integer after OFFSET, found " ++ rustDebugOptToken (peek st))))
      | (false, st) => .ok ({ limit := limit, offset := none }, st)
    | none =>
      .error (.parseError (get_parse_error st
        ("Invalid number after LIMIT, found " ++ rustDebugOptToken (peek st))))
  | _ =>
    .error (.parseError (get_parse_error st
      ("Expected integer after LIMIT, found " ++ rustDebugOptToken (peek st))))

/-- `get_clause_name` of the DELETE grammar (src/parser/delete.rs:86-93);
indices: FROM 0, WHERE 1, ORDER BY 2, LIMIT 3. -/
def delete_clause_name (idx : Nat) : String :=
  if idx = 1 then "WHERE"
  else if idx = 2 then "ORDER BY"
  else if idx = 3 then "LIMIT"
  else "FROM"

/-- `parse_delete_statement` (src/parser/delete.rs:26-82). -/
def parse_delete_statement (fuel : Nat) (st : PState) : PRes DeleteStatement :=
  match match_keyword "DELETE" st with
  | (false, st) =>
    .error (.parseError (get_parse_error st
      ("Expected DELETE, found" ++ rustDebugOptToken (peek st))))
  | (true, st) =>
  match match_keyword "FROM" st with
  | (false, st) =>
    .error (.parseError (get_parse_error st
      ("Expected FROM, found " ++ rustDebugOptToken (peek st))))
  | (true, st) =>
  match parse_table_reference false st with
  | .error e => .error e
  | .ok (table, st) =>
  let current_idx : Nat := 0
  match match_keyword "WHERE" st with
  | (whereKw, st) =>
  match
    (if whereKw then
      match move_current_idx st current_idx 1 delete_clause_name with
      | .error e => .error e
      | .ok idx =>
        match parse_expr fuel 0 st with
        | .error e => .error e
        | .ok (e, st) => .ok ((some e, idx), st)
     else .ok ((none, current_idx), st) : PRes (Option Expr × Nat)) with
  | .error e => .error e
  | .ok ((where_clause, current_idx), st) =>
  match match_keyword "ORDER" st with
  | (orderKw, st) =>
  match
    (if orderKw then
      match match_keyword "BY" st with
      | (false, st) =>
        .error (.parseError (get_parse_error st
          ("Expected BY after ORDER, found " ++ rustDebugOptToken (peek st))))
      | (true, st) =>
        match move_current_idx st current_idx 2 delete_clause_name with
        | .error e => .error e
        | .ok idx =>
          match parse_order_by fuel st with
          | .error e => .error e
          | .ok (ob, st) => .ok ((some ob, idx), st)
     else .ok ((none, current_idx), st) : PRes (Option (List OrderByExpr) × Nat)) with
  | .error e => .error e
  | .ok ((order_by, current_idx), st) =>
  match match_keyword "LIMIT" st with
  | (limitKw, st) =>
  match
    (if limitKw then
      match move_current_idx st current_idx 3 delete_clause_name with
      | .error e => .error e
      | .ok _ =>
        match parse_limit st with
        | .error e => .error e
        | .ok (l, st) => .ok (some l, st)
     else .ok (none, st) : PRes (Option LimitClause)) with
  | .error e => .error e
  | .ok (limit, st) =>
    .ok ({ table := table, where_clause := where_clause, order_by := order_by,
           limit := limit, is_return_count := true }, st)

/-- `get_clause_name` of the SELECT grammar (src/parser/select.rs:272-281);
indices: FROM 0, WHERE 1, GROUP BY 2, HAVING 3, ORDER BY 4, LIMIT 5. -/
def select_clause_name (idx : Nat) : String :=
  if idx = 1 then "WHERE"
  else if idx = 2 then "GROUP BY"
  else if idx = 3 then "HAVING"
  else if idx = 4 then "ORDER BY"
  else if idx = 5 then "LIMIT"
  else "FROM"

/-- The private `Parser::move_current_idx` of src/parser/select.rs:136-151
(same logic as the common one, with the SELECT clause names baked in). -/
def select_move_current_idx (st : PState) (current_idx clause_idx : Nat) : Except PFail Nat :=
  if clause_idx > current_idx then .ok clause_idx
  else
    .error (.parseError
      { message := select_clause_name clause_idx ++ " clause out of order, expected after " ++
          select_clause_name current_idx ++ ". Near: " ++ get_error_context st,
        token_position := st.current })

/-- The private `Parser::parse_table_reference` of src/parser/select.rs:28-55:
unlike the common one it has no `allow_as_keyword` flag and accepts an alias
only after an explicit `AS`. -/
def select_parse_table_reference (st : PState) : PRes TableReference :=
  match peek st with
  | some (Token.Identifier ident) =>
    let name := ident
    let st := nextTok st
    match match_keyword "AS" st with
    | (true, st) =>
      match peek st with
      | some (Token.Identifier a) => .ok ({ name := name, alias_ := some a }, nextTok st)
      | _ =>
        .error (.parseError (get_parse_error st
          ("Expected alias after AS, found " ++ rustDebugOptToken (peek st))))
    | (false, st) => .ok ({ name := name, alias_ := none }, st)
  | _ =>
    .error (.parseError (get_parse_error st
      ("Expected table name, found " ++ rustDebugOptToken (peek st))))

/-- `Parser::parse_select_column` (src/parser/select.rs:58-85). -/
def parse_select_column (st : PState) : PRes SelectColumn :=
  match peek st with
  | some (Token.Identifier ident) =>
    let name := ident
    let st := nextTok st
    match match_keyword "AS" st with
    | (true, st) =>
      match peek st with
      | some (Token.Identifier a) => .ok (SelectColumn.Column name (some a), nextTok st)
      | _ =>
        .error (.parseError (get_parse_error st
          ("Expected alias after AS, found " ++ rustDebugOptToken (peek st))))
    | (false, st) => .ok (SelectColumn.Column name none, st)
  | _ =>
    .error (.parseError (get_parse_error st
      ("Expected column name, found " ++ rustDebugOptToken (peek st))))

/-- The comma loop of `parse_select_columns` (src/parser/select.rs:96-104). -/
def selectColumnsLoop (fuel : Nat) (acc : List SelectColumn) (st : PState) : PRes (List SelectColumn) :=
  match fuel with
  | 0 => .error .fuelOut
  | f + 1 =>
    match parse_select_column st with
    | .error e => .error e
    | .ok (c, st) =>
      let acc := acc ++ [c]
      match match_punctuator ',' st with
      | (true, st) => selectColumnsLoop f acc st
      | (false, st) => .ok (acc, st)

/-- `Parser::parse_select_columns` (src/parser/select.rs:88-107).  Note that
the `*` branch tests `match_keyword("*")`, which can never succeed because
`*` is tokenized as an `Operator`, never as a `Keyword`. -/
def parse_select_columns (fuel : Nat) (st : PState) : PRes (List SelectColumn) :=
  match match_keyword "*" st with
  | (true, st) => .ok ([SelectColumn.Wildcard], st)
  | (false, st) => selectColumnsLoop fuel [] st

/-- The private `Parser::parse_expr` of src/parser/select.rs:109-123: its
body is `todo!()`, i.e. a panic. -/
def select_parse_expr (_st : PState) : PRes Expr :=
  .error (.panic "not yet implemented")

/-- The private `Parser::parse_group_exr` of src/parser/select.rs:125-127:
`todo!()`. -/
def select_parse_group_exr (_st : PState) : PRes (List Expr) :=
  .error (.panic "not yet implemented")

/-- The private `Parser::parse_order_by` of src/parser/select.rs:129-131:
`todo!()`. -/
def select_parse_order_by (_st : PState) : PRes (List OrderByExpr) :=
  .error (.panic "not yet implemented")

/-- The private `Parser::parse_limit` of src/parser/select.rs:132-134:
`todo!()`. -/
def select_parse_limit (_st : PState) : PRes LimitClause :=
  .error (.panic "not yet implemented")

/-- `parse_select_statement` (src/parser/select.rs:199-266). -/
def parse_select_statement (fuel : Nat) (st : PState) : PRes SelectStatement :=
  match match_keyword "SELECT" st with
  | (false, st) =>
    .error (.parseError (get_parse_error st
      ("Expected SELECT, found" ++ rustDebugOptToken (peek st))))
  | (true, st) =>
  match parse_select_columns fuel st with
  | .error e => .error e
  | .ok (columns, st) =>
  match match_keyword "FROM" st with
  | (false, st) =>
    .error (.parseError (get_parse_error st
      ("Expected FROM, found " ++ rustDebugOptToken (peek st))))
  | (true, st) =>
  match select_parse_table_reference st with
  | .error e => .error e
  | .ok (fromTable, st) =>
  let current_idx : Nat := 0
  match match_keyword "WHERE" st with
  | (whereKw, st) =>
  match
    (if whereKw then
      match select_move_current_idx st current_idx 1 with
      | .error e => .error e
      | .ok idx =>
        match select_parse_expr st with
        | .error e => .error e
        | .ok (e, st) => .ok ((some e, idx), st)
     else .ok ((none, current_idx), st) : PRes (Option Expr × Nat)) with
  | .error e => .error e
  | .ok ((where_clause, current_idx), st) =>
  match match_keyword "GROUP" st with
  | (groupKw, st) =>
  match
    (if groupKw then
      match match_keyword "BY" st with
      | (false, st) =>
        .error (.parseError (get_parse_error st
          ("Expected BY after GROUP, found " ++ rustDebugOptToken (peek st))))
      | (true, st) =>
        match select_move_current_idx st current_idx 2 with
        | .error e => .error e
        | .ok idx =>
          match select_parse_group_exr st with
          | .error e => .error e
          | .ok (g, st) => .ok ((some g, idx), st)
     else .ok ((none, current_idx), st) : PRes (Option (List Expr) × Nat)) with
  | .error e => .error e
  | .ok ((group_by, current_idx), st) =>
  match match_keyword "HAVING" st with
  | (havingKw, st) =>
  match
    (if havingKw then
      match select_move_current_idx st current_idx 3 with
      | .error e => .error e
      | .ok idx =>
        match select_parse_expr st with
        | .error e => .error e
        | .ok (e, st) => .ok ((some e, idx), st)
     else .ok ((none, current_idx), st) : PRes (Option Expr × Nat)) with
  | .error e => .error e
  | .ok ((having, current_idx), st) =>
  match match_keyword "ORDER" st with
  | (orderKw, st) =>
  match
    (if orderKw then
      match match_keyword "BY" st with
      | (false, st) =>
        .error (.parseError (get_parse_error st
          ("Expected BY after ORDER, found " ++ rustDebugOptToken (peek st))))
      | (true, st) =>
        match select_move_current_idx st current_idx 4 with
        | .error e => .error e
        | .ok idx =>
          match select_parse_order_by st with
          | .error e => .error e
          | .ok (ob, st) => .ok ((some ob, idx), st)
     else .ok ((none, current_idx), st) : PRes (Option (List OrderByExpr) × Nat)) with
  | .error e => .error e
  | .ok ((order_by, current_idx), st) =>
  match match_keyword "LIMIT" st with
  | (limitKw, st) =>
  match
    (if limitKw then
      match select_move_current_idx st current_idx 5 with
      | .error e => .error e
      | .ok _ =>
        match select_parse_limit st with
        | .error e => .error e
        | .ok (l, st) => .ok (some l, st)
     else .ok (none, st) : PRes (Option LimitClause)) with
  | .error e => .error e
  | .ok (limit, st) =>
    .ok ({ columns := columns, fromTable := fromTable, where_clause := where_clause,
           group_by := group_by, having := having, order_by := order_by,
           limit := limit }, st)

/-- `get_clause_name` of the INSERT grammar (src/parser/insert.rs:286-293);
indices: INTO 0, VALUES 1, ON_DUPLICATE_KEY_UPDATE 2. -/
def insert_clause_name (idx : Nat) : String :=
  if idx = 0 then "INTO"
  else if idx = 1 then "VALUES"
  else if idx = 2 then "ON_DUPLICATE_KEY_UPDATE"
  else "INTO"

/-- `Parser::parse_select_clause` (src/parser/insert.rs:25-33). -/
def parse_select_clause (fuel : Nat) (st : PState) : PRes (Option SelectStatement) :=
  if is_keyword "SELECT" st then
    match parse_select_statement fuel st with
    | .error e => .error e
    | .ok (sel, st) => .ok (some sel, st)
  else .ok (none, st)

/-- The inner expression-list loop of one `VALUES (...)` row
(src/parser/insert.rs:48-56). -/
def valuesExprsLoop (fuel : Nat) (acc : List Expr) (st : PState) : PRes (List Expr) :=
  match fuel with
  | 0 => .error .fuelOut
  | f + 1 =>
    match parse_expr f 0 st with
    | .error e => .error e
    | .ok (v, st) =>
      let acc := acc ++ [v]
      match match_punctuator ',' st with
      | (true, st) => valuesExprsLoop f acc st
      | (false, st) => .ok (acc, st)

/-- The row loop of `parse_values_clause` (src/parser/insert.rs:37-69). -/
def valuesRowsLoop (fuel : Nat) (acc : List (List Expr)) (st : PState) : PRes (List (List Expr)) :=
  match fuel with
  | 0 => .error .fuelOut
  | f + 1 =>
    match match_punctuator '(' st with
    | (false, st) => .error (.parseError (get_parse_error st "Expected opening parenthesis"))
    | (true, st) =>
      match match_punctuator ')' st with
      | (true, st) =>
        let acc := acc ++ [([] : List Expr)]
        match match_punctuator ',' st with
        | (true, st) => valuesRowsLoop f acc st
        | (false, st) => .ok (acc, st)
      | (false, st) =>
        match valuesExprsLoop f [] st with
        | .error e => .error e
        | .ok (row, st) =>
          match match_punctuator ')' st with
          | (false, st) => .error (.parseError (get_parse_error st "Expected closing parenthesis"))
          | (true, st) =>
            let acc := acc ++ [row]
            match match_punctuator ',' st with
            | (true, st) => valuesRowsLoop f acc st
            | (false, st) => .ok (acc, st)

/-- `Parser::parse_values_clause` (src/parser/insert.rs:34-75). -/
def parse_values_clause (fuel : Nat) (st : PState) : PRes (Option (List (List Expr))) :=
  match match_keyword "VALUES" st with
  | (true, st) =>
    match valuesRowsLoop fuel [] st with
    | .error e => .error e
    | .ok (vs, st) => .ok (some vs, st)
  | (false, st) => .ok (none, st)

/-- The assignment loop shared by `parse_set_clause`
(src/parser/insert.rs:80-106) and `parse_on_duplicate_key_update`
(src/parser/insert.rs:186-212): `column = expr`, comma separated. -/
def assignLoop (fuel : Nat) (acc : List (String × Expr)) (st : PState) : PRes (List (String × Expr)) :=
  match fuel with
  | 0 => .error .fuelOut
  | f + 1 =>
    match peek st with
    | some (Token.Identifier ident) =>
      let st := (consume_token st).2
      match match_operator "=" st with
      | (false, st) => .error (.parseError (get_parse_error st "Expected = after column name"))
      | (true, st) =>
        match parse_expr f 0 st with
        | .error e => .error e
        | .ok (v, st) =>
          let acc := acc ++ [(ident, v)]
          match match_punctuator ',' st with
          | (true, st) => assignLoop f acc st
          | (false, st) => .ok (acc, st)
    | _ => .error (.parseError (get_parse_error st "Expected column name"))

/-- `Parser::parse_set_clause` (src/parser/insert.rs:77-112). -/
def parse_set_clause (fuel : Nat) (st : PState) : PRes (Option (List (String × Expr))) :=
  match match_keyword "SET" st with
  | (true, st) =>
    match assignLoop fuel [] st with
    | .error e => .error e
    | .ok (cs, st) => .ok (some cs, st)
  | (false, st) => .ok (none, st)

/-- The column-name loop of `parse_insert_columns`
(src/parser/insert.rs:124-137). -/
def insertColumnsLoop (fuel : Nat) (acc : List String) (st : PState) : PRes (List String) :=
  match fuel with
  | 0 => .error .fuelOut
  | f + 1 =>
    match peek st with
    | some (Token.Identifier ident) =>
      let st := (consume_token st).2
      let acc := acc ++ [ident]
      match match_punctuator ',' st with
      | (true, st) => insertColumnsLoop f acc st
      | (false, st) => .ok (acc, st)
    | _ => .error (.parseError (get_parse_error st "Expected column name"))

/-- `Parser::parse_insert_columns` (src/parser/insert.rs:115-148). -/
def parse_insert_columns (fuel : Nat) (st : PState) : PRes (Option (List String)) :=
  match match_punctuator '(' st with
  | (true, st) =>
    match match_punctuator ')' st with
    | (true, st) => .ok (some [], st)
    | (false, st) =>
      match insertColumnsLoop fuel [] st with
      | .error e => .error e
      | .ok (cols, st) =>
        match match_punctuator ')' st with
        | (false, st) => .error (.parseError (get_parse_error st "Expected closing parenthesis"))
        | (true, st) => .ok (some cols, st)
  | (false, st) => .ok (none, st)

/-- `Parser::parse_default_values` (src/parser/insert.rs:150-163). -/
def parse_default_values (st : PState) : PRes Bool :=
  match match_keyword "DEFAULT" st with
  | (true, st) =>
    match match_keyword "VALUES" st with
    | (true, st) => .ok (true, st)
    | (false, st) =>
      .error (.parseError (get_parse_error st
        ("Expected VALUES after DEFAULT, found " ++ rustDebugOptToken (peek st))))
  | (false, st) => .ok (false, st)

/-- `Parser::parse_on_duplicate_key_update` (src/parser/insert.rs:165-215). -/
def parse_on_duplicate_key_update (fuel : Nat) (st : PState) : PRes (Option OnDuplicateClause) :=
  match match_keyword "ON" st with
  | (false, st) => .ok (none, st)
  | (true, st) =>
    match match_keyword "DUPLICATE" st with
    | (false, st) => .error (.parseError (get_parse_error st "Expected DUPLICATE after ON"))
    | (true, st) =>
      match match_keyword "KEY" st with
      | (false, st) => .error (.parseError (get_parse_error st "Expected KEY after ON DUPLICATE"))
      | (true, st) =>
        match match_keyword "UPDATE" st with
        | (false, st) =>
          .error (.parseError (get_parse_error st "Expected UPDATE after ON DUPLICATE KEY"))
        | (true, st) =>
          match assignLoop fuel [] st with
          | .error e => .error e
          | .ok (updates, st) => .ok (some { updates := updates }, st)

/-- The number of data sources present, as counted at
src/parser/insert.rs:248-253. -/
def dataSourceCount (is_default_values : Bool) (values : Option (List (List Expr)))
    (set_clause : Option (List (String × Expr))) (select_clause : Option SelectStatement) : Nat :=
  (if is_default_values then 1 else 0) + (if values.isSome then 1 else 0) +
  (if set_clause.isSome then 1 else 0) + (if select_clause.isSome then 1 else 0)

/-- `parse_insert_statement` (src/parser/insert.rs:221-280). -/
def parse_insert_statement (fuel : Nat) (st : PState) : PRes InsertStatement :=
  match match_keyword "INSERT" st with
  | (false, st) =>
    .error (.parseError (get_parse_error st
      ("Expected INSERT, found" ++ rustDebugOptToken (peek st))))
  | (true, st) =>
  match match_keyword "INTO" st with
  | (false, st) =>
    .error (.parseError (get_parse_error st
      ("Expected INTO, found " ++ rustDebugOptToken (peek st))))
  | (true, st) =>
  match parse_table_reference false st with
  | .error e => .error e
  | .ok (table, st) =>
  match parse_insert_columns fuel st with
  | .error e => .error e
  | .ok (columns, st) =>
  match parse_default_values st with
  | .error e => .error e
  | .ok (is_default_values, st) =>
  if columns.isSome && is_default_values then
    .error (.parseError (get_parse_error st "Cannot specify columns with DEFAULT VALUES"))
  else
  match parse_values_clause fuel st with
  | .error e => .error e
  | .ok (values, st) =>
  match parse_set_clause fuel st with
  | .error e => .error e
  | .ok (set_clause, st) =>
  match parse_select_clause fuel st with
  | .error e => .error e
  | .ok (select_clause, st) =>
  if dataSourceCount is_default_values values set_clause select_clause > 1 then
    .error (.parseError (get_parse_error st "Cannot specify multiple value sources"))
  else if dataSourceCount is_default_values values set_clause select_clause = 0 then
    .error (.parseError (get_parse_error st "Expected VALUES, SELECT, DEFAULT VALUES or SET"))
  else
  match parse_on_duplicate_key_update fuel st with
  | .error e => .error e
  | .ok (on_duplicate, st) =>
  match
    (if on_duplicate.isSome then
      match move_current_idx st 1 2 insert_clause_name with
      | .error e => .error e
      | .ok _ => .ok ((), st)
     else .ok ((), st) : PRes Unit) with
  | .error e => .error e
  | .ok (_, st) =>
    .ok ({ table := table, columns := columns, values := values,
           select_clause := select_clause, set_clause := set_clause,
           on_duplicate := on_duplicate, is_default_values := is_default_values,
           is_return_count := true }, st)

/-- Initial parser state over the token stream of an SQL text
(`Parser::new_from_sql`, src/parser/mod.rs:48-51). -/
def initSt (s : String) : PState := { tokens := tokenizeStr s, current := 0 }

/-- `pat` occurs at the head of the second list. -/
def startsSeq : List Char → List Char → Bool
  | [], _ => true
  | _ :: _, [] => false
  | a :: pat, b :: s => a = b && startsSeq pat s

/-- `pat` occurs somewhere in the second list (substring test). -/
def containsSeq (pat : List Char) : List Char → Bool
  | [] => startsSeq pat []
  | c :: rest => startsSeq pat (c :: rest) || containsSeq pat rest

/-- The run failed with a `ParseError` whose message contains `sub`. -/
def failMentions {α : Type} (sub : String) : Except PFail α → Bool
  | .error (.parseError e) => containsSeq sub.data e.message.data
  | _ => false

/-- A token stream of `n` opening parentheses, a numeric literal, and `n`
closing parentheses. -/
def nestedParens (n : Nat) : PState :=
  { tokens := List.replicate n (Token.Punctuator '(') ++ [Token.NumericLiteral "1"] ++
      List.replicate n (Token.Punctuator ')'),
    current := 0 }

/-- Characters allowed in the provable round-trip class of claim C3:
ASCII alphanumerics, the space and the comma. -/
def plainC3Char (c : Char) : Bool := c.isAlphanum || c = ' ' || c = ','

/-- No two adjacent spaces. -/
def noAdjacentSpace : List Char → Bool
  | a :: b :: rest => !(a = ' ' && b = ' ') && noAdjacentSpace (b :: rest)
  | _ => true

/-- **C9** — Concrete DELETE scenario: parsing
`DELETE FROM users WHERE id = 1 ORDER BY name LIMIT 10` succeeds with table
`users` and no alias, WHERE the equality of identifier `id` and integer
literal `1`, order-by `[name ASC]` (ascending by default), limit `10` with
no offset, and the affected-row-count flag true. -/
theorem delete_concrete_scenario :
    (parse_delete_statement 500 (initSt "DELETE FROM users WHERE id = 1 ORDER BY name LIMIT 10")).map
      Prod.fst =
    .ok { table := { name := "users", alias_ := none },
          where_clause := some (Expr.BinaryOp (Expr.Identifier "id") BinaryOperator.Eq
            (Expr.Literal (Value.Integer 1))),
          order_by := some [{ expr := Expr.Identifier "name", asc := true }],
          limit := some { limit := 10, offset := none },
          is_return_count := true } := by
  rfl

/-- **C10** — Statement parsers do not require the whole input to be
consumed: `DELETE FROM users LIMIT 1 WHERE id = 1` parses successfully with
limit `1` and no WHERE clause, leaving the trailing `WHERE id = 1` tokens
unconsumed (`has_more` is still true on the final cursor). -/
theorem delete_ignores_trailing_tokens :
    (parse_delete_statement 500 (initSt "DELETE FROM users LIMIT 1 WHERE id = 1")).map
      (fun r => (r.1.limit, r.1.where_clause, r.1.order_by, has_more r.2)) =
    .ok (some { limit := 1, offset := none }, none, none, true) := by
  rfl

/-- **C6** — Operator precedence: `1 + 2 * 3` parses to an addition whose
right operand is the multiplication of `2` and `3`, and `a OR b AND c`
parses to an OR whose right (second) operand is the AND of `b` and `c`. -/
theorem expr_precedence :
    (parse_expr 500 0 (initSt "1 + 2 * 3")).map Prod.fst =
      .ok (Expr.BinaryOp (Expr.Literal (Value.Integer 1)) BinaryOperator.Plus
        (Expr.BinaryOp (Expr.Literal (Value.Integer 2)) BinaryOperator.Multiply
          (Expr.Literal (Value.Integer 3)))) ∧
    (parse_expr 500 0 (initSt "a OR b AND c")).map Prod.fst =
      .ok (Expr.LogicalOp LogicalOperator.Or [Expr.Identifier "a",
        Expr.LogicalOp LogicalOperator.And [Expr.Identifier "b", Expr.Identifier "c"]]) := by
  exact ⟨rfl, rfl⟩

/-- **C1 counterexample** — With `allow_as_keyword = false` (the DELETE
target), a bare identifier after the table name IS recorded as the alias
(`DELETE FROM users u ...` yields alias `u`), and the explicit-`AS` form is
NOT accepted (`DELETE FROM users AS u ...` yields alias `none`, the `AS`
and everything after it being left unconsumed, so the WHERE clause is also
`none`) — the opposite of the claim on both counts. -/
theorem delete_alias_claim_false :
    (parse_delete_statement 500 (initSt "DELETE FROM users u WHERE id = 1")).map
      (fun r => r.1.table) = .ok { name := "users", alias_ := some "u" } ∧
    (parse_delete_statement 500 (initSt "DELETE FROM users AS u WHERE id = 1")).map
      (fun r => (r.1.table, r.1.where_clause)) =
      .ok ({ name := "users", alias_ := none }, none) := by
  exact ⟨rfl, rfl⟩

/-- **C1 amended** — `parse_table_reference false` takes a bare following
identifier as the alias (no `AS` accepted): on a stream starting with two
identifiers the second becomes the alias and two tokens are consumed, while
on `identifier, AS-keyword, identifier` the alias is `none` and only the
table name is consumed (the `&&` short-circuit skips `match_keyword("AS")`
entirely). -/
theorem delete_alias_amended :
    (∀ (n a : String) (rest : List Token),
      parse_table_reference false
        { tokens := Token.Identifier n :: Token.Identifier a :: rest, current := 0 } =
      .ok ({ name := n, alias_ := some a },
           { tokens := Token.Identifier n :: Token.Identifier a :: rest, current := 2 })) ∧
    (∀ (n a : String) (rest : List Token),
      parse_table_reference false
        { tokens := Token.Identifier n :: Token.Keyword "AS" :: Token.Identifier a :: rest,
          current := 0 } =
      .ok ({ name := n, alias_ := none },
           { tokens := Token.Identifier n :: Token.Keyword "AS" :: Token.Identifier a :: rest,
             current := 1 })) := by
  constructor
  · intro n a rest
    rfl
  · intro n a rest
    rfl

/-- **C2 counterexample** — `SELECT a FROM t ORDER BY x LIMIT 1 WHERE b = 2`
(WHERE after ORDER BY) does not fail with a clause-order `ParseError` citing
WHERE and ORDER BY: it panics in the `todo!()` stub `parse_order_by` of
src/parser/select.rs; and the canonical-order `SELECT a FROM t WHERE b = 2`
does not succeed either — it panics in the stubbed `parse_expr`. -/
theorem select_clause_order_claim_false :
    parse_select_statement 300 (initSt "SELECT a FROM t ORDER BY x LIMIT 1 WHERE b = 2") =
      .error (.panic "not yet implemented") ∧
    parse_select_statement 300 (initSt "SELECT a FROM t WHERE b = 2") =
      .error (.panic "not yet implemented") := by
  exact ⟨rfl, rfl⟩

/-- **C2 amended** — In `parse_select_statement` the clause-order check can
never fire: the single forward pass visits the clause ordinals in strictly
increasing order, and `select_move_current_idx` succeeds whenever the new
ordinal exceeds the tracked one.  An out-of-order WHERE is simply left
unconsumed (or, on the concrete input, the parse first panics in the
`todo!()`-stubbed ORDER BY sub-parser), and a canonical-order SELECT
succeeds precisely when it uses no optional clause, e.g. `SELECT a FROM t`. -/
theorem select_clause_order_amended :
    (parse_select_statement 300 (initSt "SELECT a FROM t")).map Prod.fst =
      .ok { columns := [SelectColumn.Column "a" none],
            fromTable := { name := "t", alias_ := none },
            where_clause := none, group_by := none, having := none,
            order_by := none, limit := none } ∧
    parse_select_statement 300 (initSt "SELECT a FROM t ORDER BY x LIMIT 1 WHERE b = 2") =
      .error (.panic "not yet implemented") ∧
    (∀ (st : PState) (cur cl : Nat), cur < cl →
      select_move_current_idx st cur cl = .ok cl) := by
  refine ⟨rfl, rfl, ?_⟩
  intro st cur cl h
  simp [select_move_current_idx, h]

/-- **C2 amended, witness** — the clause-order check applied at the concrete
ordinals 0 < 1. -/
theorem select_clause_order_amended_holds :
    (0 : Nat) < 1 ∧ select_move_current_idx { tokens := [], current := 0 } 0 1 = .ok 1 :=
  ⟨by decide, select_clause_order_amended.2.2 { tokens := [], current := 0 } 0 1 (by decide)⟩

/-- Climbing the precedence chain at an opening parenthesis consumes one
token and one unit of depth: starting at depth `d` with at least `101 - d`
opening parentheses ahead, `parse_expr` reaches the depth bound and returns
the nesting error at the position of the 101st unmatched parenthesis. -/
theorem parse_expr_deep_parens :
    ∀ (k d : Nat), k + d = 101 → ∀ (f : Nat), 9 * (k + 1) ≤ f →
      ∀ (ts : List Token) (p : Nat),
      (∀ i, i < k → ts.get? (p + i) = some (Token.Punctuator '(')) →
      parse_expr f d ⟨ts, p⟩ =
        .error (.parseError (get_parse_error ⟨ts, p + k⟩ "Expression nesting too deep")) := by
  intro k
  induction k with
  | zero =>
    intro d hd f hf ts p _
    obtain ⟨f', rfl⟩ : ∃ f', f = f' + 1 := ⟨f - 1, by omega⟩
    simp only [parse_expr]
    rw [if_pos (by simp only [MAX_EXPR_DEPTH]; omega)]
    simp
  | succ k ih =>
    intro d hd f hf ts p hts
    obtain ⟨g, rfl⟩ : ∃ g, f = (g + 8) + 1 := ⟨f - 9, by omega⟩
    have h0 : ts.get? p = some (Token.Punctuator '(') := by
      have := hts 0 (by omega)
      simpa using this
    have hrec : parse_expr (g + 8) (d + 1) ⟨ts, p + 1⟩ =
        .error (.parseError (get_parse_error ⟨ts, p + (k + 1)⟩ "Expression nesting too deep")) := by
      have := ih (d + 1) (by omega) (g + 8) (by omega) ts (p + 1) (fun i hi => by
        have := hts (i + 1) (by omega)
        rw [show p + 1 + i = p + (i + 1) from by omega]
        exact this)
      rw [show p + 1 + k = p + (k + 1) from by omega] at this
      exact this
    have e1 : parse_primary (fun d st => parse_expr (g + 8) d st) d ⟨ts, p⟩ =
        .error (.parseError (get_parse_error ⟨ts, p + (k + 1)⟩ "Expression nesting too deep")) := by
      simp only [parse_primary, consume_token, h0]
      simp [hrec]
    have e2 : parse_unary (fun d st => parse_expr (g + 8) d st) (g + 2) d ⟨ts, p⟩ =
        .error (.parseError (get_parse_error ⟨ts, p + (k + 1)⟩ "Expression nesting too deep")) := by
      simp only [parse_unary, peek, h0]
      exact e1
    have e3 : parse_multiplicative (fun d st => parse_expr (g + 8) d st) (g + 3) d ⟨ts, p⟩ =
        .error (.parseError (get_parse_error ⟨ts, p + (k + 1)⟩ "Expression nesting too deep")) := by
      simp only [parse_multiplicative, e2]
    have e4 : parse_additive (fun d st => parse_expr (g + 8) d st) (g + 4) d ⟨ts, p⟩ =
        .error (.parseError (get_parse_error ⟨ts, p + (k + 1)⟩ "Expression nesting too deep")) := by
      simp only [parse_additive, e3]
    have e5 : parse_comparison (fun d st => parse_expr (g + 8) d st) (g + 5) d ⟨ts, p⟩ =
        .error (.parseError (get_parse_error ⟨ts, p + (k + 1)⟩ "Expression nesting too deep")) := by
      simp only [parse_comparison, e4]
    have e6 : parse_not (fun d st => parse_expr (g + 8) d st) (g + 6) d ⟨ts, p⟩ =
        .error (.parseError (get_parse_error ⟨ts, p + (k + 1)⟩ "Expression nesting too deep")) := by
      simp only [parse_not, match_keyword, peek, h0]
      exact e5
    have e7 : parse_logical_and (fun d st => parse_expr (g + 8) d st) (g + 7) d ⟨ts, p⟩ =
        .error (.parseError (get_parse_error ⟨ts, p + (k + 1)⟩ "Expression nesting too deep")) := by
      simp only [parse_logical_and, e6]
    have e8 : parse_logical_or (fun d st => parse_expr (g + 8) d st) (g + 8) d ⟨ts, p⟩ =
        .error (.parseError (get_parse_error ⟨ts, p + (k + 1)⟩ "Expression nesting too deep")) := by
      simp only [parse_logical_or, e7]
    simp only [parse_expr]
    rw [if_neg (by simp only [MAX_EXPR_DEPTH]; omega)]
    exact e8

set_option maxRecDepth 40000 in
/-- **C7** — Expression recursion depth guard: `parse_expr` called at depth
`d > 100` always returns the "Expression nesting too deep" parse error
(whose recorded position is the current cursor position — no token is
consumed); every token stream with 101 opening parentheses ahead of the
cursor fails with that error at the 101st parenthesis; the concrete input
of 101 nested parentheses fails with it; and an input of exactly 100 nested
parentheses still succeeds. -/
theorem expr_depth_guard :
    (∀ (f d : Nat) (st : PState), 100 < d →
      parse_expr (f + 1) d st =
        .error (.parseError (get_parse_error st "Expression nesting too deep"))) ∧
    (∀ (ts : List Token) (p f : Nat), 918 ≤ f →
      (∀ i, i < 101 → ts.get? (p + i) = some (Token.Punctuator '(')) →
      parse_expr f 0 ⟨ts, p⟩ =
        .error (.parseError (get_parse_error ⟨ts, p + 101⟩ "Expression nesting too deep"))) ∧
    failMentions "Expression nesting too deep" (parse_expr 3000 0 (nestedParens 101)) = true ∧
    (parse_expr 3000 0 (nestedParens 101)).mapError
      (fun e => match e with | .parseError pe => pe.token_position | _ => 0) =
      .error 101 ∧
    (parse_expr 3000 0 (nestedParens 100)).map Prod.fst = .ok (Expr.Literal (Value.Integer 1)) := by
  refine ⟨?_, ?_, rfl, rfl, rfl⟩
  · intro f d st h
    simp only [parse_expr, MAX_EXPR_DEPTH]
    rw [if_pos h]
  · intro ts p f hf hts
    exact parse_expr_deep_parens 101 0 (by omega) f (by omega) ts p hts

/-- **C7 witness** — the depth-guard theorem applied at depth 101 on the
empty token stream. -/
theorem expr_depth_guard_holds :
    (100 : Nat) < 101 ∧
    parse_expr 1 101 { tokens := [], current := 0 } =
      .error (.parseError (get_parse_error { tokens := [], current := 0 }
        "Expression nesting too deep")) :=
  ⟨by decide, expr_depth_guard.1 0 101 { tokens := [], current := 0 } (by decide)⟩

/-- **C8 counterexample** — an unterminated single quote is not flushed as
an identifier at end of input: the captured quote content is silently
discarded by `parse_single_identifier`, so tokenizing `'ab` (an unterminated
quote) yields no token at all rather than an `Identifier`. -/
theorem unterminated_quote_dropped :
    tokenize (qc :: 'a' :: 'b' :: []) = [] ∧
    ([] : List Token) ≠ [Token.Identifier "ab"] := by
  exact ⟨rfl, by decide⟩

/-- **C8 amended** — the tokenizer is total by construction and surfaces no
failure: unclassifiable fragments degrade to `Identifier` tokens (`@#`
becomes two one-character identifiers), an unterminated backtick is flushed
as an `Identifier` at end of input, but the content of an unterminated
single quote is silently dropped (still no failure — the parse simply sees
no token there). -/
theorem tokenizer_tolerance_amended :
    tokenizeStr "@#" = [Token.Identifier "@", Token.Identifier "#"] ∧
    tokenize (btc :: 'a' :: 'b' :: []) = [Token.Identifier "ab"] ∧
    tokenize (qc :: 'a' :: 'b' :: []) = [] ∧
    tokenizeStr "values(1,2,3)" =
      [Token.Keyword "values", Token.Punctuator '(', Token.NumericLiteral "1",
       Token.Punctuator ',', Token.NumericLiteral "2", Token.Punctuator ',',
       Token.NumericLiteral "3", Token.Punctuator ')'] := by
  exact ⟨rfl, rfl, rfl, rfl⟩

/-- **C4 counterexample** — `preprocess_input` is not idempotent: on the
input `'a,b'` (a quoted comma) the first pass masks the comma into the
sentinel `---`, and the second pass's line-comment stripping then treats
`--` as a comment opener and truncates the text. -/
theorem preprocess_not_idempotent :
    preprocess_input (qc :: 'a' :: ',' :: 'b' :: qc :: []) =
      (qc :: 'a' :: '-' :: '-' :: '-' :: 'b' :: qc :: []) ∧
    preprocess_input (preprocess_input (qc :: 'a' :: ',' :: 'b' :: qc :: [])) =
      (qc :: 'a' :: []) ∧
    (qc :: 'a' :: []) ≠ (qc :: 'a' :: '-' :: '-' :: '-' :: 'b' :: qc :: []) := by
  exact ⟨rfl, rfl, by decide⟩

/-- **C3 counterexample** — the quoting round trip fails for a string with
two adjacent spaces: the whitespace-collapsing pass of `preprocess_input`
runs before quote masking and rewrites the literal's interior, so tokenizing
`'a  b,c'` yields the single `StringLiteral "a b,c"`, not the original
payload `a  b,c`. -/
theorem quoting_roundtrip_claim_false :
    tokenize (qc :: "a  b,c".data ++ [qc]) = [Token.StringLiteral "a b,c"] ∧
    "a b,c" ≠ "a  b,c" := by
  exact ⟨rfl, by decide⟩

/-- **C5** — INSERT data-source exclusivity: every `InsertStatement` that
`parse_insert_statement` returns has exactly one of
{DEFAULT VALUES, VALUES, SET, SELECT} populated; a two-source input
(`VALUES ... SET ...`) fails with the "Cannot specify multiple value
sources" error, a zero-source input fails with the "Expected VALUES,
SELECT, DEFAULT VALUES or SET" error, and a single-source input succeeds. -/
theorem insert_data_source_exclusivity :
    (∀ (fuel : Nat) (st : PState) (out : InsertStatement × PState),
      parse_insert_statement fuel st = .ok out →
      dataSourceCount out.1.is_default_values out.1.values out.1.set_clause
        out.1.select_clause = 1) ∧
    failMentions "Cannot specify multiple value sources"
      (parse_insert_statement 300 (initSt "INSERT INTO t (a) VALUES (1) SET a=1")) = true ∧
    failMentions "Expected VALUES, SELECT, DEFAULT VALUES or SET"
      (parse_insert_statement 300 (initSt "INSERT INTO t (a)")) = true ∧
    (parse_insert_statement 300 (initSt "INSERT INTO t (a) VALUES (1)")).map
      (fun r => (r.1.columns, r.1.values, r.1.set_clause.isSome,
                 r.1.select_clause.isSome, r.1.is_default_values)) =
      .ok (some ["a"], some [[Expr.Literal (Value.Integer 1)]], false, false, false) := by
  refine ⟨?_, rfl, rfl, rfl⟩
  intro fuel st out h
  unfold parse_insert_statement at h
  repeat' split at h
  all_goals try exact Except.noConfusion h
  all_goals rw [Except.ok.injEq] at h
  all_goals subst h
  all_goals simp only [dataSourceCount] at *
  all_goals omega

/-- **C5 witness** — the exclusivity invariant applied to the concrete
successful parse of `INSERT INTO t (a) VALUES (1)`. -/
theorem insert_data_source_exclusivity_holds :
    dataSourceCount false (some [[Expr.Literal (Value.Integer 1)]]) none none = 1 :=
  insert_data_source_exclusivity.1 300 (initSt "INSERT INTO t (a) VALUES (1)")
    ({ table := { name := "t", alias_ := none }, columns := some ["a"],
       values := some [[Expr.Literal (Value.Integer 1)]], select_clause := none,
       set_clause := none, on_duplicate := none, is_default_values := false,
       is_return_count := true },
     { tokens := tokenizeStr "INSERT INTO t (a) VALUES (1)", current := 10 }) rfl


theorem sbGo_none_id : ∀ (s : List Char), (∀ c ∈ s, c ≠ '/') → sbGo none s = s := by
  intro s
  induction s with
  | nil => intro _; rfl
  | cons c rest ih =>
    intro h
    rw [sbGo.eq_def]
    split <;> simp_all

theorem stripLineAux_false_id : ∀ (s : List Char), (∀ c ∈ s, c ≠ '-') → stripLineAux false s = s := by
  intro s
  induction s with
  | nil => intro _; rfl
  | cons c rest ih =>
    intro h
    rw [stripLineAux.eq_def]
    split <;> simp_all

theorem mapNl_id (s : List Char) (h : ∀ c ∈ s, c ≠ '\n') : mapNl s = s := by
  induction s with
  | nil => rfl
  | cons c rest ih =>
    simp only [mapNl, List.map_cons] at *
    rw [if_neg (h c (by simp)), ih (fun x hx => h x (by simp [hx]))]

theorem mask_id : ∀ (s : List Char), (∀ c ∈ s, c ≠ qc) → mask false s = s := by
  intro s
  induction s with
  | nil => intro _; rfl
  | cons c rest ih =>
    intro h
    rw [mask.eq_def]
    split <;> simp_all

theorem replace2_skip (p : Char × Char) (r : List Char) (a : Char) (l : List Char)
    (ha : a ≠ p.1) : replace2 p r (a :: l) = a :: replace2 p r l := by
  match l with
  | [] => rfl
  | b :: l' =>
    rw [replace2.eq_def]
    split <;> simp_all
    intro hp
    rw [← hp] at ha
    simp at ha

theorem replace2_id (p : Char × Char) (r : List Char) :
    ∀ (l : List Char), (∀ c ∈ l, c ≠ p.1) → replace2 p r l = l := by
  intro l
  induction l with
  | nil => intro _; rfl
  | cons a l' ih =>
    intro h
    rw [replace2_skip p r a l' (h a (by simp)), ih (fun x hx => h x (by simp [hx]))]

theorem replace3_skip (p : Char × Char × Char) (r : List Char) (a : Char) (l : List Char)
    (ha : a ≠ p.1) : replace3 p r (a :: l) = a :: replace3 p r l := by
  match l with
  | [] => rfl
  | [b] => rfl
  | b :: c :: l' =>
    rw [replace3.eq_def]
    split <;> simp_all
    intro hp
    rw [← hp] at ha
    simp at ha

theorem replace3_skip2 (p : Char × Char × Char) (r : List Char) (a b : Char) (l : List Char)
    (hb : b ≠ p.2.1) : replace3 p r (a :: b :: l) = a :: replace3 p r (b :: l) := by
  match l with
  | [] => rfl
  | c :: l' =>
    rw [replace3.eq_def]
    split <;> simp_all
    intro hp
    rw [← hp] at hb
    simp at hb

theorem replace3_id (p : Char × Char × Char) (r : List Char) :
    ∀ (l : List Char), (∀ c ∈ l, c ≠ p.1) → replace3 p r l = l := by
  intro l
  induction l with
  | nil => intro _; rfl
  | cons a l' ih =>
    intro h
    rw [replace3_skip p r a l' (h a (by simp)), ih (fun x hx => h x (by simp [hx]))]

theorem collapseGo_flag (s : List Char)
    (h : ∀ c, s.head? = some c → isWs c = false) :
    collapseGo true s = collapseGo false s := by
  cases s with
  | nil => rfl
  | cons c r => simp [collapseGo, h c rfl]

theorem collapseGo_false_id : ∀ (s : List Char),
    (∀ c ∈ s, isWs c = true → c = ' ') →
    List.Chain' (fun a b => ¬(a = ' ' ∧ b = ' ')) s →
    collapseGo false s = s := by
  intro s
  induction s with
  | nil => intro _ _; rfl
  | cons c rest ih =>
    intro hsp hch
    by_cases hc : isWs c = true
    · have hc' : c = ' ' := hsp c (by simp) hc
      subst hc'
      rw [show collapseGo false (' ' :: rest) = ' ' :: collapseGo true rest by
        simp [collapseGo, hc]]
      rw [collapseGo_flag rest ?_, ih (fun x hx hw => hsp x (by simp [hx]) hw) hch.tail]
      intro d hd
      by_contra hw
      simp only [Bool.not_eq_false] at hw
      have hd' : d = ' ' := hsp d (by cases rest with
        | nil => simp at hd
        | cons e r => simp at hd; simp [hd]) hw
      subst hd'
      rcases List.chain'_cons'.1 hch with ⟨hR, _⟩
      exact hR ' ' hd ⟨rfl, rfl⟩
    · rw [show collapseGo false (c :: rest) = c :: collapseGo false rest by
        simp [collapseGo, hc]]
      rw [ih (fun x hx hw => hsp x (by simp [hx]) hw) hch.tail]

theorem mem_collapseGo : ∀ (s : List Char) (b : Bool) (c : Char),
    c ∈ collapseGo b s → c = ' ' ∨ (c ∈ s ∧ isWs c = false) := by
  intro s
  induction s with
  | nil => intro b c h; simp [collapseGo] at h
  | cons d rest ih =>
    intro b c h
    by_cases hd : isWs d = true
    · cases b with
      | true =>
        rw [show collapseGo true (d :: rest) = collapseGo true rest by simp [collapseGo, hd]] at h
        rcases ih true c h with h' | h'
        · exact Or.inl h'
        · exact Or.inr ⟨by simp [h'.1], h'.2⟩
      | false =>
        rw [show collapseGo false (d :: rest) = ' ' :: collapseGo true rest by
          simp [collapseGo, hd]] at h
        rcases List.mem_cons.1 h with h' | h'
        · exact Or.inl h'
        · rcases ih true c h' with h'' | h''
          · exact Or.inl h''
          · exact Or.inr ⟨by simp [h''.1], h''.2⟩
    · rw [show collapseGo b (d :: rest) = d :: collapseGo false rest by
        simp [collapseGo, hd]] at h
      rcases List.mem_cons.1 h with h' | h'
      · subst h'; exact Or.inr ⟨by simp, by simpa using hd⟩
      · rcases ih false c h' with h'' | h''
        · exact Or.inl h''
        · exact Or.inr ⟨by simp [h''.1], h''.2⟩

theorem collapseGo_true_head : ∀ (s : List Char) (c : Char),
    (collapseGo true s).head? = some c → isWs c = false := by
  intro s
  induction s with
  | nil => intro c h; simp [collapseGo] at h
  | cons d rest ih =>
    intro c h
    by_cases hd : isWs d = true
    · rw [show collapseGo true (d :: rest) = collapseGo true rest by simp [collapseGo, hd]] at h
      exact ih c h
    · rw [show collapseGo true (d :: rest) = d :: collapseGo false rest by
        simp [collapseGo, hd]] at h
      simp at h
      subst h
      simpa using hd

theorem collapseGo_chain : ∀ (s : List Char) (b : Bool),
    List.Chain' (fun a b => ¬(a = ' ' ∧ b = ' ')) (collapseGo b s) := by
  intro s
  induction s with
  | nil => intro b; simp [collapseGo]
  | cons d rest ih =>
    intro b
    by_cases hd : isWs d = true
    · cases b with
      | true =>
        rw [show collapseGo true (d :: rest) = collapseGo true rest by simp [collapseGo, hd]]
        exact ih true
      | false =>
        rw [show collapseGo false (d :: rest) = ' ' :: collapseGo true rest by
          simp [collapseGo, hd]]
        refine List.chain'_cons'.2 ⟨?_, ih true⟩
        intro y hy
        intro ⟨_, hy'⟩
        subst hy'
        have := collapseGo_true_head rest ' ' hy
        simp [isWs] at this
    · rw [show collapseGo b (d :: rest) = d :: collapseGo false rest by
        simp [collapseGo, hd]]
      refine List.chain'_cons'.2 ⟨?_, ih false⟩
      intro y hy
      intro ⟨hd', _⟩
      subst hd'
      simp [isWs] at hd

theorem dropWhile_head?_false (p : Char → Bool) :
    ∀ (l : List Char) (c : Char), (l.dropWhile p).head? = some c → p c = false := by
  intro l
  induction l with
  | nil => intro c h; simp at h
  | cons d r ih =>
    intro c h
    by_cases hd : p d = true
    · rw [List.dropWhile_cons_of_pos hd] at h
      exact ih c h
    · rw [List.dropWhile_cons_of_neg hd] at h
      simp at h
      subst h
      simpa using hd

theorem dropWhile_suffix' (p : Char → Bool) : ∀ (l : List Char), l.dropWhile p <:+ l := by
  intro l
  induction l with
  | nil => simp
  | cons d r ih =>
    by_cases hd : p d = true
    · rw [List.dropWhile_cons_of_pos hd]
      exact ih.trans (List.suffix_cons d r)
    · rw [List.dropWhile_cons_of_neg hd]

theorem dropWhile_getLast? (p : Char → Bool) :
    ∀ (l : List Char), l.dropWhile p ≠ [] → (l.dropWhile p).getLast? = l.getLast? := by
  intro l
  induction l with
  | nil => intro h; simp at h
  | cons d r ih =>
    intro h
    by_cases hd : p d = true
    · rw [List.dropWhile_cons_of_pos hd] at h ⊢
      cases r with
      | nil => simp at h
      | cons e r' =>
        rw [ih h, List.getLast?_cons_cons]
    · rw [List.dropWhile_cons_of_neg hd]

theorem trimList_id (s : List Char)
    (hh : ∀ c, s.head? = some c → isWs c = false)
    (hl : ∀ c, s.getLast? = some c → isWs c = false) : trimList s = s := by
  have h1 : s.dropWhile isWs = s := by
    cases s with
    | nil => rfl
    | cons c r => exact List.dropWhile_cons_of_neg (by simp [hh c rfl])
  unfold trimList
  rw [h1]
  have h2 : s.reverse.dropWhile isWs = s.reverse := by
    cases hrev : s.reverse with
    | nil => rfl
    | cons c r =>
      have : s.getLast? = some c := by
        rw [← List.head?_reverse, hrev]; rfl
      rw [List.dropWhile_cons_of_neg (by simp [hl c this])]
  rw [h2, List.reverse_reverse]

theorem trimList_head (s : List Char) (c : Char) :
    (trimList s).head? = some c → isWs c = false := by
  intro h
  unfold trimList at h
  rw [List.head?_reverse] at h
  have hne : ((s.dropWhile isWs).reverse.dropWhile isWs) ≠ [] := by
    intro he; rw [he] at h; simp at h
  rw [dropWhile_getLast? isWs _ hne] at h
  rw [show (s.dropWhile isWs).reverse.getLast? = (s.dropWhile isWs).head? by
    rw [← List.head?_reverse, List.reverse_reverse]] at h
  exact dropWhile_head?_false isWs _ c h

theorem trimList_getLast (s : List Char) (c : Char) :
    (trimList s).getLast? = some c → isWs c = false := by
  intro h
  unfold trimList at h
  rw [show ((s.dropWhile isWs).reverse.dropWhile isWs).reverse.getLast? =
      ((s.dropWhile isWs).reverse.dropWhile isWs).head? by
    rw [← List.head?_reverse, List.reverse_reverse]] at h
  exact dropWhile_head?_false isWs _ c h

theorem mem_trimList (s : List Char) (c : Char) : c ∈ trimList s → c ∈ s := by
  intro h
  unfold trimList at h
  rw [List.mem_reverse] at h
  have h2 := (dropWhile_suffix' isWs _).mem h
  rw [List.mem_reverse] at h2
  exact (dropWhile_suffix' isWs _).mem h2

theorem trimList_chain (s : List Char)
    (h : List.Chain' (fun a b => ¬(a = ' ' ∧ b = ' ')) s) :
    List.Chain' (fun a b => ¬(a = ' ' ∧ b = ' ')) (trimList s) := by
  unfold trimList
  have h1 : List.Chain' (fun a b => ¬(a = ' ' ∧ b = ' ')) (s.dropWhile isWs) :=
    h.suffix (dropWhile_suffix' isWs s)
  have h2 : List.Chain' (fun a b => ¬(a = ' ' ∧ b = ' ')) (s.dropWhile isWs).reverse := by
    rw [List.chain'_reverse]
    exact h1.imp fun {a b} hab => by rintro ⟨x, y⟩; exact hab ⟨y, x⟩
  have h3 : List.Chain' (fun a b => ¬(a = ' ' ∧ b = ' '))
      ((s.dropWhile isWs).reverse.dropWhile isWs) :=
    h2.suffix (dropWhile_suffix' isWs _)
  rw [List.chain'_reverse]
  exact h3.imp fun {a b} hab => by rintro ⟨x, y⟩; exact hab ⟨y, x⟩

theorem mem_mapNl (s : List Char) (c : Char) (h : c ∈ mapNl s) : c = ' ' ∨ c ∈ s := by
  unfold mapNl at h
  rcases List.mem_map.1 h with ⟨d, hd, hdc⟩
  by_cases hdn : d = '\n'
  · subst hdn; simp at hdc; exact Or.inl hdc.symm
  · rw [if_neg hdn] at hdc; subst hdc; exact Or.inr hd

theorem preprocess_plain (s : List Char)
    (h : ∀ c ∈ s, (c.isAlphanum || isWs c) = true) :
    preprocess_input s = trimList (collapseGo false (mapNl s)) := by
  have hne : ∀ (x : Char), x.isAlphanum = false → isWs x = false → ∀ c ∈ s, c ≠ x := by
    intro x hx1 hx2 c hc he
    subst he
    have := h c hc
    rw [hx1, hx2] at this
    simp at this
  have hmem : ∀ c ∈ trimList (collapseGo false (mapNl s)), c ≠ qc := by
    intro c hc
    have h1 := mem_trimList _ c hc
    rcases mem_collapseGo _ _ _ h1 with h2 | ⟨h2, _⟩
    · subst h2; decide
    · rcases mem_mapNl _ _ h2 with h3 | h3
      · subst h3; decide
      · exact hne qc (by decide) (by decide) c h3
  unfold preprocess_input stripLine stripBlock collapse
  rw [sbGo_none_id s (hne '/' (by decide) (by decide))]
  rw [stripLineAux_false_id s (hne '-' (by decide) (by decide))]
  rw [replace3_id _ _ _ hmem, mask_id _ hmem]

theorem alnum_not_ws : ∀ (c : Char), c.isAlphanum = true → isWs c = false := by
  intro c h
  by_contra hw
  simp only [Bool.not_eq_false, isWs, Bool.or_eq_true, decide_eq_true_eq] at hw
  rcases hw with ((((rfl | rfl) | rfl) | rfl) | rfl) | rfl <;> exact absurd h (by decide)

theorem preprocess_canonical (s : List Char)
    (hcls : ∀ c ∈ s, (c.isAlphanum || c = ' ') = true)
    (hch : List.Chain' (fun a b => ¬(a = ' ' ∧ b = ' ')) s)
    (hh : ∀ c, s.head? = some c → isWs c = false)
    (hl : ∀ c, s.getLast? = some c → isWs c = false) :
    preprocess_input s = s := by
  have hne : ∀ (x : Char), x.isAlphanum = false → x ≠ ' ' → ∀ c ∈ s, c ≠ x := by
    intro x hx1 hx2 c hc he
    subst he
    rcases (by simpa using hcls c hc : c.isAlphanum = true ∨ c = ' ') with h1 | h1
    · rw [hx1] at h1; exact absurd h1 (by simp)
    · exact hx2 h1
  have hsp : ∀ c ∈ s, isWs c = true → c = ' ' := by
    intro c hc hw
    rcases (by simpa using hcls c hc : c.isAlphanum = true ∨ c = ' ') with h1 | h1
    · rw [alnum_not_ws c h1] at hw; exact absurd hw (by simp)
    · exact h1
  unfold preprocess_input stripLine stripBlock collapse
  rw [sbGo_none_id s (hne '/' (by decide) (by decide))]
  rw [stripLineAux_false_id s (hne '-' (by decide) (by decide))]
  rw [mapNl_id s (hne '\n' (by decide) (by decide))]
  rw [collapseGo_false_id s hsp hch]
  rw [trimList_id s hh hl]
  rw [replace3_id _ _ s (hne qc (by decide) (by decide))]
  rw [mask_id s (hne qc (by decide) (by decide))]

/-- **C4 amended** — `preprocess_input` is idempotent on inputs consisting
only of ASCII alphanumerics and whitespace: on that class the pass reduces
to whitespace collapsing-and-trimming, whose output it leaves fixed.  (In
general it is not idempotent; see the counterexample.) -/
theorem preprocess_idempotent_amended :
    ∀ (s : List Char), (∀ c ∈ s, (c.isAlphanum || isWs c) = true) →
    preprocess_input (preprocess_input s) = preprocess_input s := by
  intro s h
  rw [preprocess_plain s h]
  apply preprocess_canonical
  · intro c hc
    have h1 := mem_trimList _ c hc
    rcases mem_collapseGo _ _ _ h1 with h2 | ⟨h2, hw⟩
    · simp [h2]
    · rcases mem_mapNl _ _ h2 with h3 | h3
      · simp [h3]
      · rcases (by simpa using h c h3 : c.isAlphanum = true ∨ isWs c = true) with h4 | h4
        · simp [h4]
        · rw [h4] at hw; cases hw
  · exact trimList_chain _ (collapseGo_chain _ _)
  · intro c hc; exact trimList_head _ c hc
  · intro c hc; exact trimList_getLast _ c hc

/-- **C4 amended, witness** — idempotence applied to a concrete
alphanumeric-and-whitespace input with doubled spaces and a newline. -/
theorem preprocess_idempotent_amended_holds :
    (∀ c ∈ ("a  b" ++ String.mk ['\n'] ++ "  c  ").data, (c.isAlphanum || isWs c) = true) ∧
    preprocess_input (preprocess_input ("a  b" ++ String.mk ['\n'] ++ "  c  ").data) =
      preprocess_input ("a  b" ++ String.mk ['\n'] ++ "  c  ").data :=
  ⟨by decide, preprocess_idempotent_amended _ (by decide)⟩

theorem plainC3_cases (c : Char) (h : plainC3Char c = true) :
    c.isAlphanum = true ∨ c = ' ' ∨ c = ',' := by
  simpa [plainC3Char, or_assoc] using h

theorem alnum_ne (x : Char) (hx : x.isAlphanum = false) (c : Char)
    (h : c.isAlphanum = true) : c ≠ x := by
  intro he
  rw [he, hx] at h
  cases h

theorem mask_true_append : ∀ (s : List Char), (∀ c ∈ s, c ≠ qc) →
    mask true (s ++ [qc]) =
      (s.flatMap fun c => if c = ' ' then ['_', '_', '_']
        else if c = ',' then ['-', '-', '-'] else [c]) ++ [qc] := by
  intro s
  induction s with
  | nil => intro _; simp [mask]
  | cons c s' ih =>
    intro h
    have hc : c ≠ qc := h c (by simp)
    by_cases hsp : c = ' '
    · subst hsp
      simp only [List.cons_append, List.flatMap_cons]
      rw [show mask true (' ' :: (s' ++ [qc])) = '_' :: '_' :: '_' :: mask true (s' ++ [qc]) by
        simp [mask, hc]]
      rw [ih (fun x hx => h x (by simp [hx]))]
      simp
    · by_cases hcm : c = ','
      · subst hcm
        simp only [List.cons_append, List.flatMap_cons]
        rw [show mask true (',' :: (s' ++ [qc])) = '-' :: '-' :: '-' :: mask true (s' ++ [qc]) by
          simp [mask, hc]]
        rw [ih (fun x hx => h x (by simp [hx]))]
        simp
      · simp only [List.cons_append, List.flatMap_cons]
        rw [show mask true (c :: (s' ++ [qc])) = c :: mask true (s' ++ [qc]) by
          simp [mask, hc, hsp, hcm]]
        rw [ih (fun x hx => h x (by simp [hx]))]
        simp [hsp, hcm]

theorem replace3_append_singleton (p : Char × Char × Char) (r : List Char) (x : Char) :
    ∀ (l : List Char), (∀ c ∈ l, c ≠ p.1) → replace3 p r (l ++ [x]) = l ++ [x] := by
  intro l
  induction l with
  | nil => intro _; rfl
  | cons c l' ih =>
    intro h
    rw [List.cons_append, replace3_skip p r c _ (h c (by simp)),
      ih (fun y hy => h y (by simp [hy]))]

theorem restore_spaces : ∀ (s : List Char), (∀ c ∈ s, plainC3Char c = true) →
    replace3 ('_', '_', '_') [' ']
      (s.flatMap fun c => if c = ' ' then ['_', '_', '_']
        else if c = ',' then ['-', '-', '-'] else [c]) =
    (s.flatMap fun c => if c = ',' then ['-', '-', '-'] else [c]) := by
  intro s
  induction s with
  | nil => intro _; rfl
  | cons c s' ih =>
    intro h
    have ih' := ih (fun x hx => h x (by simp [hx]))
    rcases plainC3_cases c (h c (by simp)) with hA | hS | hC
    · have hS' : c ≠ ' ' := alnum_ne ' ' (by decide) c hA
      have hC' : c ≠ ',' := alnum_ne ',' (by decide) c hA
      have hU' : c ≠ '_' := alnum_ne '_' (by decide) c hA
      simp only [List.flatMap_cons, if_neg hS', if_neg hC', List.singleton_append]
      rw [replace3_skip _ _ _ _ hU', ih']
    · subst hS
      rw [show ((' ' :: s').flatMap fun c => if c = ' ' then ['_', '_', '_']
          else if c = ',' then ['-', '-', '-'] else [c]) =
        '_' :: '_' :: '_' :: (s'.flatMap fun c => if c = ' ' then ['_', '_', '_']
          else if c = ',' then ['-', '-', '-'] else [c]) from by simp]
      rw [show replace3 ('_', '_', '_') [' ']
          ('_' :: '_' :: '_' :: (s'.flatMap fun c => if c = ' ' then ['_', '_', '_']
            else if c = ',' then ['-', '-', '-'] else [c])) =
          ' ' :: replace3 ('_', '_', '_') [' '] (s'.flatMap fun c => if c = ' ' then ['_', '_', '_']
            else if c = ',' then ['-', '-', '-'] else [c]) from by simp [replace3]]
      rw [ih']
      simp
    · subst hC
      rw [show ((',' :: s').flatMap fun c => if c = ' ' then ['_', '_', '_']
          else if c = ',' then ['-', '-', '-'] else [c]) =
        '-' :: '-' :: '-' :: (s'.flatMap fun c => if c = ' ' then ['_', '_', '_']
          else if c = ',' then ['-', '-', '-'] else [c]) from by simp]
      rw [replace3_skip _ _ _ _ (by decide), replace3_skip _ _ _ _ (by decide),
        replace3_skip _ _ _ _ (by decide), ih']
      simp

theorem restore_commas : ∀ (s : List Char), (∀ c ∈ s, plainC3Char c = true) →
    replace3 ('-', '-', '-') [',']
      (s.flatMap fun c => if c = ',' then ['-', '-', '-'] else [c]) = s := by
  intro s
  induction s with
  | nil => intro _; rfl
  | cons c s' ih =>
    intro h
    have ih' := ih (fun x hx => h x (by simp [hx]))
    rcases plainC3_cases c (h c (by simp)) with hA | hS | hC
    · have hC' : c ≠ ',' := alnum_ne ',' (by decide) c hA
      have hD' : c ≠ '-' := alnum_ne '-' (by decide) c hA
      rw [show ((c :: s').flatMap fun c => if c = ',' then ['-', '-', '-'] else [c]) =
        c :: (s'.flatMap fun c => if c = ',' then ['-', '-', '-'] else [c]) from by
          simp [hC']]
      rw [replace3_skip _ _ _ _ hD', ih']
    · subst hS
      rw [show ((' ' :: s').flatMap fun c => if c = ',' then ['-', '-', '-'] else [c]) =
        ' ' :: (s'.flatMap fun c => if c = ',' then ['-', '-', '-'] else [c]) from by simp]
      rw [replace3_skip _ _ _ _ (by decide), ih']
    · subst hC
      rw [show ((',' :: s').flatMap fun c => if c = ',' then ['-', '-', '-'] else [c]) =
        '-' :: '-' :: '-' :: (s'.flatMap fun c => if c = ',' then ['-', '-', '-'] else [c])
        from by simp]
      rw [show replace3 ('-', '-', '-') [',']
          ('-' :: '-' :: '-' :: (s'.flatMap fun c => if c = ',' then ['-', '-', '-'] else [c])) =
          ',' :: replace3 ('-', '-', '-') [','] (s'.flatMap fun c =>
            if c = ',' then ['-', '-', '-'] else [c]) from by simp [replace3]]
      rw [ih']

theorem mem_maskF (s : List Char) (h : ∀ c ∈ s, plainC3Char c = true) (c : Char)
    (hc : c ∈ s.flatMap fun c => if c = ' ' then ['_', '_', '_']
      else if c = ',' then ['-', '-', '-'] else [c]) :
    c = '_' ∨ c = '-' ∨ (c ∈ s ∧ c.isAlphanum = true) := by
  rcases List.mem_flatMap.1 hc with ⟨d, hd, hcd⟩
  rcases plainC3_cases d (h d hd) with hA | hS | hC
  · have hS' : d ≠ ' ' := alnum_ne ' ' (by decide) d hA
    have hC' : d ≠ ',' := alnum_ne ',' (by decide) d hA
    rw [if_neg hS', if_neg hC'] at hcd
    simp at hcd
    subst hcd
    exact Or.inr (Or.inr ⟨hd, hA⟩)
  · subst hS
    simp at hcd
    rcases hcd with rfl | rfl | rfl <;> simp
  · subst hC
    simp at hcd
    rcases hcd with rfl | rfl | rfl <;> simp

theorem mem_maskF2 (s : List Char) (h : ∀ c ∈ s, plainC3Char c = true) (c : Char)
    (hc : c ∈ s.flatMap fun c => if c = ',' then ['-', '-', '-'] else [c]) :
    c = '-' ∨ (c ∈ s ∧ c ≠ ',') := by
  rcases List.mem_flatMap.1 hc with ⟨d, hd, hcd⟩
  by_cases hC : d = ','
  · subst hC
    simp at hcd
    rcases hcd with rfl | rfl | rfl <;> simp
  · rw [if_neg hC] at hcd
    simp at hcd
    subst hcd
    exact Or.inr ⟨hd, hC⟩

theorem splitWsGo_nows : ∀ (w cur : List Char), (∀ c ∈ w, isWs c = false) →
    (cur ≠ [] ∨ w ≠ []) → splitWsGo cur w = [cur.reverse ++ w] := by
  intro w
  induction w with
  | nil =>
    intro cur _ hne
    rcases hne with hne | hne
    · simp [splitWsGo, hne]
    · simp at hne
  | cons c rest ih =>
    intro cur h _
    rw [show splitWsGo cur (c :: rest) = splitWsGo (c :: cur) rest from by
      simp [splitWsGo, h c (by simp)]]
    rw [ih (c :: cur) (fun x hx => h x (by simp [hx])) (Or.inl (by simp))]
    simp

theorem contains_upper_quoted_false (L : List String)
    (hL : ∀ t ∈ L, t.data.head? ≠ some qc) (l : List Char) :
    L.contains (upperStr (qc :: l)) = false := by
  have hnm : ¬ (upperStr (qc :: l) ∈ L) := by
    intro hmem
    refine hL _ hmem ?_
    simp [upperStr, show Char.toUpper qc = qc from by decide]
  simpa using hnm

theorem tokenizeWord_quoted (m : List Char) (hm : ∀ c ∈ m, c ≠ '(') :
    tokenizeWord (qc :: (m ++ [qc])) = [Token.StringLiteral (String.mk
      (replace3 ('-', '-', '-') [','] (replace2 (qc, qc) [qc]
        (replace3 ('_', '_', '_') [' '] m))))] := by
  have hlast : (qc :: (m ++ [qc])).getLast? = some qc := by
    rw [show qc :: (m ++ [qc]) = (qc :: m) ++ [qc] from rfl]
    exact List.getLast?_concat _
  have htdt : try_parse_data_type (qc :: (m ++ [qc])) = none := by
    unfold try_parse_data_type
    rw [contains_upper_quoted_false TYPES (by decide) _]
    rw [show (qc :: (m ++ [qc])).findIdx? (· = '(') = none from ?_]
    · simp
    · rw [List.findIdx?_eq_none_iff]
      intro c hc
      rcases List.mem_cons.1 hc with h1 | h1
      · subst h1; decide
      · rcases List.mem_append.1 h1 with h2 | h2
        · simpa using hm c h2
        · simp at h2; subst h2; decide
  have hkw : KEYWORDS.contains (upperStr (qc :: (m ++ [qc]))) = false :=
    contains_upper_quoted_false KEYWORDS (by decide) _
  unfold tokenizeWord
  rw [hlast]
  simp only [show (qc = ',' || qc = ';') = false from by decide, Bool.false_eq_true,
    if_false, Option.isSome_none, List.dropLast_concat]
  rw [if_neg (by simp : ¬ (qc :: (m ++ [qc])) = [])]
  rw [htdt]
  rw [hkw]
  simp only [Bool.false_eq_true, if_false]
  rw [show (qc :: (m ++ [qc])).all Char.isDigit = false from by
    simp [show Char.isDigit qc = false from by decide]]
  simp only [Bool.false_eq_true, if_false]
  rw [if_pos (by
    simp [hlast, List.length_append])]
  simp [List.dropLast_concat]

/-- **C3 amended** — restricted round trip of quoting: for every payload
`s` over ASCII alphanumerics, spaces and commas, with no two adjacent
spaces and containing at least one space and one comma, tokenizing `'<s>'`
yields exactly one `StringLiteral` token whose payload is `s` (the sentinel
masking of spaces and commas is exactly reversed). -/
theorem quoting_roundtrip_amended :
    ∀ (s : List Char), (∀ c ∈ s, plainC3Char c = true) →
    List.Chain' (fun a b => ¬(a = ' ' ∧ b = ' ')) s →
    ' ' ∈ s → ',' ∈ s →
    tokenize (qc :: s ++ [qc]) = [Token.StringLiteral (String.mk s)] := by
  intro s hpl hch hsp hcm
  have hsqc : ∀ c ∈ s, c ≠ qc := by
    intro c hc
    rcases plainC3_cases c (hpl c hc) with hA | h1 | h1
    · exact alnum_ne qc (by decide) c hA
    · subst h1; decide
    · subst h1; decide
  have hne : ∀ (y : Char), y.isAlphanum = false → y ≠ ' ' → y ≠ ',' → y ≠ qc →
      ∀ c ∈ qc :: s ++ [qc], c ≠ y := by
    intro y hy1 hy2 hy3 hy4 c hc he
    rcases List.mem_cons.1 hc with h1 | h1
    · exact hy4 (he.symm.trans h1)
    · rcases List.mem_append.1 h1 with h2 | h2
      · rcases plainC3_cases c (hpl c h2) with hA | hS | hC
        · rw [he, hy1] at hA; cases hA
        · exact hy2 (he.symm.trans hS)
        · exact hy3 (he.symm.trans hC)
      · simp at h2
        exact hy4 (he.symm.trans h2)
  -- the preprocessed form: the quote-masked literal
  have hpre : preprocess_input (qc :: s ++ [qc]) =
      qc :: ((s.flatMap fun c => if c = ' ' then ['_', '_', '_']
        else if c = ',' then ['-', '-', '-'] else [c]) ++ [qc]) := by
    unfold preprocess_input stripLine stripBlock collapse
    rw [sbGo_none_id _ (hne '/' (by decide) (by decide) (by decide) (by decide))]
    rw [stripLineAux_false_id _ (hne '-' (by decide) (by decide) (by decide) (by decide))]
    rw [mapNl_id _ (hne '\n' (by decide) (by decide) (by decide) (by decide))]
    rw [collapseGo_false_id _ ?hsp ?hch]
    case hsp =>
      intro c hc hw
      rcases List.mem_cons.1 hc with h1 | h1
      · subst h1; exact absurd hw (by decide)
      · rcases List.mem_append.1 h1 with h2 | h2
        · rcases plainC3_cases c (hpl c h2) with hA | hS | hC
          · rw [alnum_not_ws c hA] at hw; cases hw
          · exact hS
          · subst hC; exact absurd hw (by decide)
        · simp at h2; subst h2; exact absurd hw (by decide)
    case hch =>
      refine List.chain'_cons'.2 ⟨?_, ?_⟩
      · intro y _
        rintro ⟨h1, _⟩
        exact absurd h1 (by decide)
      · refine List.chain'_append.2 ⟨hch, by simp, ?_⟩
        intro a _ b hb
        simp at hb
        subst hb
        rintro ⟨_, h2⟩
        exact absurd h2 (by decide)
    rw [trimList_id _ ?hh ?hl]
    case hh =>
      intro c hc
      simp at hc
      subst hc
      decide
    case hl =>
      intro c hc
      rw [show (qc :: s ++ [qc]).getLast? = some qc from by
        rw [show qc :: s ++ [qc] = (qc :: s) ++ [qc] from rfl]
        exact List.getLast?_concat _] at hc
      simp at hc
      subst hc
      decide
    obtain ⟨a, s', rfl⟩ : ∃ a s', s = a :: s' := by
      cases s with
      | nil => simp at hsp
      | cons a s' => exact ⟨a, s', rfl⟩
    rw [show (qc :: (a :: s') ++ [qc]) = qc :: a :: (s' ++ [qc]) from by simp]
    rw [replace3_skip2 _ _ _ _ _ (hsqc a (by simp))]
    rw [show (a :: (s' ++ [qc])) = (a :: s') ++ [qc] from by simp]
    rw [replace3_append_singleton _ _ _ _ hsqc]
    rw [show mask false (qc :: ((a :: s') ++ [qc])) = qc :: mask true ((a :: s') ++ [qc]) from by
      simp [mask]]
    rw [mask_true_append _ hsqc]
  have hsplit : splitWs (qc :: ((s.flatMap fun c => if c = ' ' then ['_', '_', '_']
      else if c = ',' then ['-', '-', '-'] else [c]) ++ [qc])) = [qc :: ((s.flatMap fun c =>
      if c = ' ' then ['_', '_', '_'] else if c = ',' then ['-', '-', '-'] else [c]) ++ [qc])] := by
    unfold splitWs
    rw [splitWsGo_nows _ _ ?_ (Or.inr (by simp))]
    · simp
    · intro c hc
      rcases List.mem_cons.1 hc with h1 | h1
      · subst h1; decide
      · rcases List.mem_append.1 h1 with h2 | h2
        · rcases mem_maskF s hpl c h2 with rfl | rfl | ⟨_, hA⟩
          · decide
          · decide
          · exact alnum_not_ws c hA
        · simp at h2; subst h2; decide
  rw [show tokenize (qc :: s ++ [qc]) =
    ((splitWs (preprocess_input (qc :: s ++ [qc]))).map tokenizeWord).flatten from rfl]
  rw [hpre, hsplit]
  rw [show (List.map tokenizeWord [qc :: ((s.flatMap fun c => if c = ' ' then ['_', '_', '_']
      else if c = ',' then ['-', '-', '-'] else [c]) ++ [qc])]).flatten =
    tokenizeWord (qc :: ((s.flatMap fun c => if c = ' ' then ['_', '_', '_']
      else if c = ',' then ['-', '-', '-'] else [c]) ++ [qc])) from by simp]
  rw [tokenizeWord_quoted _ ?hpar]
  case hpar =>
    intro c hc
    rcases mem_maskF s hpl c hc with rfl | rfl | ⟨_, hA⟩
    · decide
    · decide
    · exact alnum_ne '(' (by decide) c hA
  rw [restore_spaces s hpl]
  rw [replace2_id _ _ _ ?noqc]
  case noqc =>
    intro c hc
    rcases mem_maskF2 s hpl c hc with rfl | ⟨hcs, _⟩
    · decide
    · exact hsqc c hcs
  rw [restore_commas s hpl]

/-- **C3 amended, witness** — the restricted round trip applied to the
concrete payload `a b,c`. -/
theorem quoting_roundtrip_amended_holds :
    tokenize (qc :: "a b,c".data ++ [qc]) = [Token.StringLiteral (String.mk "a b,c".data)] :=
  quoting_roundtrip_amended "a b,c".data (by decide)
    (by simp [List.chain'_cons, List.chain'_singleton]) (by decide) (by decide)
